import Mathlib

/-!
Verification of the core of the pam_pico continuous-authentication daemon
against its natural-language specification.  The C sources are embedded
shallowly: configuration parsing (authconfig.c), the session registry and
request/reply pairing (serviceble.c / auththread.c), the rendezvous-point
byte channel (servicervp.c), and the beacon fan-out engine
(beaconthread.c / beaconsend.c).
-/

namespace PamPico

/-! ## JSON values as seen through libpico's json.h interface

authconfig.c consumes a parsed JSON dictionary through `json_get_type`,
`json_get_integer`, `json_get_decimal` and `json_get_string`.  We model a
parsed dictionary as an association list of keys to typed values; the
type tag returned by `json_get_type` is determined by the stored value. -/

/-- Typed JSON value stored under a key of a parsed JSON dictionary. -/
inductive JsonVal where
  | jstr (s : String)
  | jint (n : Int)
  | jdec (d : Rat)
  | jother
deriving DecidableEq, Repr

/-- Type tags reported by `json_get_type` (JSONTYPE in libpico). -/
inductive JSONTYPE where
  | jinvalid
  | jstring
  | jdecimal
  | jinteger
  | jother
deriving DecidableEq, Repr

/-- Lookup a key in a parsed JSON dictionary (first binding wins). -/
def json_get (obj : List (String × JsonVal)) (key : String) : Option JsonVal :=
  match obj with
  | [] => none
  | (k, v) :: rest => if k = key then some v else json_get rest key

/-- The type tag `json_get_type` reports for a key. -/
def json_get_type (obj : List (String × JsonVal)) (key : String) : JSONTYPE :=
  match json_get obj key with
  | none => .jinvalid
  | some (.jstr _) => .jstring
  | some (.jint _) => .jinteger
  | some (.jdec _) => .jdecimal
  | some .jother => .jother

/-- A caller-supplied JSON parameters string as consumed by
`authconfig_read_json`: NULL/zero-length, malformed (deserialisation
fails), or a well-formed dictionary. -/
inductive JsonString where
  | empty
  | malformed
  | wellformed (obj : List (String × JsonVal))

/-! ## AuthConfig (authconfig.c) -/

/-- Channel selector (AUTHCHANNEL in authconfig.h). -/
inductive AUTHCHANNEL where
  | rvp
  | btc
deriving DecidableEq, Repr

/-- The AuthConfig structure of authconfig.c.  The `timeout` field is a C
float; the claims about it concern only whether it is updated, so we
carry it as a rational. -/
structure AuthConfig where
  continuous : Bool
  channeltype : AUTHCHANNEL
  beacons : Bool
  anyuser : Bool
  timeout : Rat
  rvpurl : String
  configdir : String
deriving DecidableEq, Repr

/-- Defaults set by `authconfig_new`. -/
def authconfig_new : AuthConfig :=
  { continuous := false
    channeltype := .rvp
    beacons := false
    anyuser := false
    timeout := 0
    rvpurl := "http://rendezvous.mypico.org/channel/"
    configdir := "/etc/pam-pico/" }

/-- `authconfig_postfix_char`: append `c` unless the string is non-empty
and already ends with `c`. -/
def authconfig_append_char (s : String) (c : Char) : String :=
  if s.length > 0 ∧ s.back = c then s else s.push c

/-! The body of `authconfig_read_json` is a sequence of independent
key blocks, each guarded by a `json_get_type` check; we name one
function per block, applied in the source order. -/

/-- Key block for `continuous`: applied when the value is an integer. -/
def readKeyContinuous (cfg : AuthConfig) (obj : List (String × JsonVal)) : AuthConfig :=
  match json_get obj "continuous" with
  | some (.jint n) => { cfg with continuous := n != 0 }
  | _ => cfg

/-- Key block for `channeltype`: applied when the value is a string;
the two `strcmp` tests run one after the other. -/
def readKeyChanneltype (cfg : AuthConfig) (obj : List (String × JsonVal)) : AuthConfig :=
  match json_get obj "channeltype" with
  | some (.jstr s) =>
    let cfg := if s = "rvp" then { cfg with channeltype := .rvp } else cfg
    if s = "btc" then { cfg with channeltype := .btc } else cfg
  | _ => cfg

/-- Key block for `beacons`: applied when the value is an integer. -/
def readKeyBeacons (cfg : AuthConfig) (obj : List (String × JsonVal)) : AuthConfig :=
  match json_get obj "beacons" with
  | some (.jint n) => { cfg with beacons := n != 0 }
  | _ => cfg

/-- Key block for `anyuser`: applied when the value is an integer. -/
def readKeyAnyuser (cfg : AuthConfig) (obj : List (String × JsonVal)) : AuthConfig :=
  match json_get obj "anyuser" with
  | some (.jint n) => { cfg with anyuser := n != 0 }
  | _ => cfg

/-- Key block for `timeout`: applied only when the value is typed as a
decimal (`JSONTYPE_DECIMAL`); an integer-typed value is skipped. -/
def readKeyTimeout (cfg : AuthConfig) (obj : List (String × JsonVal)) : AuthConfig :=
  match json_get obj "timeout" with
  | some (.jdec d) => { cfg with timeout := d }
  | _ => cfg

/-- Key block for `rvpurl`: applied when the value is a string; a
trailing slash is appended when absent. -/
def readKeyRvpurl (cfg : AuthConfig) (obj : List (String × JsonVal)) : AuthConfig :=
  match json_get obj "rvpurl" with
  | some (.jstr s) => { cfg with rvpurl := authconfig_append_char s '/' }
  | _ => cfg

/-- Key block for `configdir`: applied when the value is a string; a
trailing slash is appended when absent. -/
def readKeyConfigdir (cfg : AuthConfig) (obj : List (String × JsonVal)) : AuthConfig :=
  match json_get obj "configdir" with
  | some (.jstr s) => { cfg with configdir := authconfig_append_char s '/' }
  | _ => cfg

/-- `authconfig_read_json`: overlay the recognised keys of a caller JSON
dictionary onto a config.  Each key is applied only when its value has
the type the C code tests for with `json_get_type`.  Returns the updated
config and the success flag (deserialisation result). -/
def authconfig_read_json (cfg : AuthConfig) (json : JsonString) : AuthConfig × Bool :=
  match json with
  | .empty => (cfg, true)
  | .malformed => (cfg, false)
  | .wellformed obj =>
    (readKeyConfigdir
      (readKeyRvpurl
        (readKeyTimeout
          (readKeyAnyuser
            (readKeyBeacons
              (readKeyChanneltype
                (readKeyContinuous cfg obj) obj) obj) obj) obj) obj) obj, true)

/-- Content of the on-disk config file as seen by `authconfig_load_json`:
either the file is absent (fail-open, config unchanged, success), or it
streams to a JSON string which is handed to `authconfig_read_json`. -/
inductive FileContent where
  | absentFile
  | contents (js : JsonString)

/-- `authconfig_load_json`: load the file and overlay it via
`authconfig_read_json`; an absent file leaves the config unchanged and
reports success. -/
def authconfig_load_json (cfg : AuthConfig) (file : FileContent) : AuthConfig × Bool :=
  match file with
  | .absentFile => (cfg, true)
  | .contents js => authconfig_read_json cfg js

/-- `auththread_config` (pico-continuous's auththread.c): save the
current `anyuser` value, load the config file, restore `anyuser`
(discarding whatever the file set it to), then — only if the file loaded
cleanly — overlay the caller-supplied dbus parameters. -/
def auththread_config (cfg : AuthConfig) (file : FileContent) (params : JsonString) :
    AuthConfig × Bool :=
  let anyuser_restore := cfg.anyuser
  let loaded := authconfig_load_json cfg file
  let cfg2 := { loaded.1 with anyuser := anyuser_restore }
  if loaded.2 then authconfig_read_json cfg2 params
  else (cfg2, false)

/-! ## AuthThread states and the session registry (serviceble.c, auththread.c) -/

/-- AUTHTHREADSTATE from auththread.h, in declaration order (the C code
compares states with `<` and `>=` on the underlying integers). -/
inductive AUTHTHREADSTATE where
  | invalid
  | started
  | completed
  | continuing
  | harvestable
deriving DecidableEq, Repr

/-- The integer value of an AUTHTHREADSTATE enumerator. -/
def AUTHTHREADSTATE.toNat : AUTHTHREADSTATE → Nat
  | .invalid => 0
  | .started => 1
  | .completed => 2
  | .continuing => 3
  | .harvestable => 4

/-- The fields of the AuthThread structure that the registry and the
request/reply pairing read and write.  `objInv` holds the stored
object/invocation pair used to reply to the dbus caller, identified by
the invocation's id; NULL is `none`. -/
structure AuthThreadM where
  handle : Int
  state : AUTHTHREADSTATE
  result : Bool
  username : String
  password : String
  objInv : Option Nat
deriving DecidableEq, Repr

/-- `auththread_new`: a fresh session record (the username buffer is
initialised to "Nobody"). -/
def auththread_new : AuthThreadM :=
  { handle := 0
    state := .invalid
    result := false
    username := "Nobody"
    password := ""
    objInv := none }

/-- MAX_SIMULTANEOUS_AUTHS from serviceble.c. -/
def MAX_SIMULTANEOUS_AUTHS : Nat := 16

/-- The ProcessStore: a sparse slot table of `MAX_SIMULTANEOUS_AUTHS`
entries plus the live linked list (`first`, most recent at the head,
represented by the slot handles in list order) and the next-available
cursor. -/
structure ProcessStore where
  items : List (Option AuthThreadM)
  first : List Nat
  nextAvailable : Nat
deriving DecidableEq, Repr

/-- `processstore_new`: all slots empty, cursor at 0. -/
def processstore_new : ProcessStore :=
  { items := List.replicate MAX_SIMULTANEOUS_AUTHS none
    first := []
    nextAvailable := 0 }

/-- `processstore_remove`: free a slot, detach it from the live list and
lower the cursor to the freed handle if that is smaller. -/
def processstore_remove (store : ProcessStore) (handle : Int) : ProcessStore :=
  if 0 ≤ handle ∧ handle < (MAX_SIMULTANEOUS_AUTHS : Int) then
    let h := handle.toNat
    if (store.items.getD h none).isSome then
      { items := store.items.set h none
        first := store.first.erase h
        nextAvailable := if h < store.nextAvailable then h else store.nextAvailable }
    else store
  else store

/-- One step of the harvest walk: remove the visited session when it is
in the harvestable state. -/
def harvestStep (st : ProcessStore) (h : Nat) : ProcessStore :=
  match st.items.getD h none with
  | some t => if t.state = .harvestable then processstore_remove st (Int.ofNat h) else st
  | none => st

/-- `processstore_harvest`: walk the live list (the `next` pointer of
each item is captured before a removal, so the walk covers exactly the
items present when the harvest started) and remove every session in the
harvestable state. -/
def processstore_harvest (store : ProcessStore) : ProcessStore :=
  store.first.foldl harvestStep store

/-- The cursor hunt of `processstore_add`: advance past consecutive
occupied slots starting from `n`. -/
def advanceCursor (items : List (Option AuthThreadM)) (n : Nat) : Nat :=
  if h : n < MAX_SIMULTANEOUS_AUTHS ∧ (items.getD n none).isSome then
    advanceCursor items (n + 1)
  else n
termination_by MAX_SIMULTANEOUS_AUTHS - n

/-- `processstore_add`: harvest, then, if a slot is free, create a fresh
session at the cursor, push it on the live list and advance the cursor;
return the handle, or -1 when the pool is exhausted. -/
def processstore_add (store : ProcessStore) : ProcessStore × Int :=
  let store := processstore_harvest store
  let handle := store.nextAvailable
  if handle < MAX_SIMULTANEOUS_AUTHS then
    let t := { auththread_new with handle := Int.ofNat handle }
    let items := store.items.set handle (some t)
    ({ items := items
       first := handle :: store.first
       nextAvailable := advanceCursor items handle },
     Int.ofNat handle)
  else (store, -1)

/-- `processstore_get_auththread`: slot lookup guarded by the handle
range check. -/
def processstore_get_auththread (store : ProcessStore) (handle : Int) : Option AuthThreadM :=
  if 0 ≤ handle ∧ handle < (MAX_SIMULTANEOUS_AUTHS : Int) then
    store.items.getD handle.toNat none
  else none

/-- Update the session stored at a (valid) handle. -/
def processstore_update (store : ProcessStore) (handle : Int) (t : AuthThreadM) : ProcessStore :=
  if 0 ≤ handle ∧ handle < (MAX_SIMULTANEOUS_AUTHS : Int) then
    { store with items := store.items.set handle.toNat (some t) }
  else store

/-- A reply sent on the CompleteAuth dbus interface:
`(username, password, success)`. -/
structure CompleteReply where
  user : String
  token : String
  success : Bool
deriving DecidableEq, Repr

/-- `complete_auth` (serviceble.c): for a non-negative handle, look the
session up; if its state is at least COMPLETED reply immediately with
the stored result and clear the object/invocation, otherwise store the
object/invocation for a later reply.  A non-negative handle with no
session falls through without any reply.  A negative handle is answered
immediately with `("", "", false)`.  Returns the updated store, the C
return value, and the reply emitted by this call (if any). -/
def complete_auth (store : ProcessStore) (inv : Nat) (handle : Int) :
    ProcessStore × Bool × Option CompleteReply :=
  if 0 ≤ handle then
    match processstore_get_auththread store handle with
    | some t =>
      if AUTHTHREADSTATE.toNat .completed ≤ t.state.toNat then
        (processstore_update store handle { t with objInv := none }, true,
         some { user := t.username, token := t.password, success := t.result })
      else
        (processstore_update store handle { t with objInv := some inv }, true, none)
    | none => (store, true, none)
  else
    (store, false, some { user := "", token := "", success := false })

/-- The exhausted branch of `start_auth` (serviceble.c): when
`processstore_add` fails the caller is replied `(handle, "", false)`
with `handle = -1`; otherwise the reply `(handle, beacon, setupOk)` is
emitted later by `auththread_start_auth` once the channel is set up
(the beacon string and setup result come from the channel layer and
enter the model as parameters). -/
def start_auth (store : ProcessStore) (configOk : Bool) (beacon : String) (setupOk : Bool) :
    ProcessStore × Option (Int × String × Bool) × Bool :=
  let added := processstore_add store
  let store := added.1
  let handle := added.2
  if handle < 0 then
    (store, some (handle, "", false), false)
  else if configOk then
    match processstore_get_auththread store handle with
    | some t =>
      (processstore_update store handle { t with state := .started },
       some (handle, beacon, setupOk), true)
    | none => (store, none, true)
  else
    (store, none, false)

/-! ## Per-session reply pairing and screen lock (auththread.c)

The dbus endpoints and the FsmService callbacks mutate a single session.
We model the session-visible handlers of auththread.c as a trace machine:
each event is one handler invocation run to completion on the GMainLoop,
and each step reports the dbus replies it emitted (tagged with the id of
the invocation they were sent on) and the screen-lock commands it ran. -/

/-- FsmService states that `authhtread_service_update` dispatches on
(FSMSERVICESTATE in libpico); all others hit the default branch. -/
inductive FsmUpd where
  | fsmStart
  | fsmAuthenticated
  | fsmAuthFailed
  | fsmFin
  | fsmError
  | fsmOther
deriving DecidableEq, Repr

/-- Which dbus method a reply completes. -/
inductive ReplyKind where
  | startAuthReply
  | completeAuthReply
deriving DecidableEq, Repr

/-- A reply emitted to the dbus caller: the invocation it was sent on,
the method it completes, and the success flag it carries. -/
structure SentReply where
  inv : Nat
  kind : ReplyKind
  success : Bool
deriving DecidableEq, Repr

/-- The per-session state visible to the reply/lock logic.  `continuousCfg`
is the value `authconfig_get_continuous` reads from the session's config. -/
structure SessionS where
  state : AUTHTHREADSTATE
  result : Bool
  objInv : Option Nat
  continuousCfg : Bool
  username : String
deriving DecidableEq, Repr

/-- A fresh session configured with the given continuous flag and
username, as set up by `start_auth` before `auththread_start_auth` runs. -/
def sessionInit (continuousCfg : Bool) (username : String) : SessionS :=
  { state := .invalid
    result := false
    objInv := none
    continuousCfg := continuousCfg
    username := username }

/-- Events delivered to one session: the StartAuth processing (storing
the invocation and emitting the StartAuth reply), an FsmService state
update, the service-stopped callback, and the arrival of the
CompleteAuth dbus call for this session's handle. -/
inductive SessionEv where
  | startAuthCall (inv : Nat)
  | fsmUpdate (u : FsmUpd)
  | serviceStopped
  | completeAuthCall (inv : Nat)
deriving DecidableEq, Repr

/-- `auththread_complete_auth_reply`: if an object/invocation pair is
stored, clear it and send the CompleteAuth-style reply on it. -/
def auththread_complete_auth_reply (s : SessionS) (success : Bool) :
    SessionS × List SentReply :=
  match s.objInv with
  | some i => ({ s with objInv := none }, [{ inv := i, kind := .completeAuthReply, success := success }])
  | none => (s, [])

/-- One event step of a session.  Returns the updated session, the
replies emitted and the usernames the screen-lock command was run for.

* `startAuthCall`: `start_auth` stores the object/invocation, then
  `auththread_start_auth` sets the state to STARTED and completes the
  StartAuth call on the stored invocation — without clearing it.
* `fsmUpdate`: `authhtread_service_update`.
* `serviceStopped`: `auththread_service_stopped`.
* `completeAuthCall`: the valid-handle path of `complete_auth`. -/
def sessionStep (s : SessionS) (e : SessionEv) : SessionS × List SentReply × List String :=
  match e with
  | .startAuthCall inv =>
    let s := { s with objInv := some inv, state := .started }
    (s, [{ inv := inv, kind := .startAuthReply, success := true }], [])
  | .fsmUpdate u =>
    match u with
    | .fsmStart => (s, [], [])
    | .fsmAuthenticated =>
      let s := { s with result := true, state := .completed }
      let replied := auththread_complete_auth_reply s s.result
      let s := replied.1
      let s := if s.continuousCfg then { s with state := .continuing } else s
      (s, replied.2, [])
    | .fsmAuthFailed =>
      let s := { s with result := false, state := .completed }
      let replied := auththread_complete_auth_reply s s.result
      (replied.1, replied.2, [])
    | .fsmFin =>
      let replied := auththread_complete_auth_reply s false
      (replied.1, replied.2, if s.result then [s.username] else [])
    | .fsmError =>
      let replied := auththread_complete_auth_reply s false
      (replied.1, replied.2, if s.result then [s.username] else [])
    | .fsmOther => (s, [], [])
  | .serviceStopped =>
    let locks := if s.continuousCfg then [s.username] else []
    let replied := auththread_complete_auth_reply s false
    ({ replied.1 with state := .harvestable }, replied.2, locks)
  | .completeAuthCall inv =>
    if AUTHTHREADSTATE.toNat .completed ≤ s.state.toNat then
      ({ s with objInv := none },
       [{ inv := inv, kind := .completeAuthReply, success := s.result }], [])
    else
      ({ s with objInv := some inv }, [], [])

/-- Run a session over a trace of events, accumulating replies and lock
invocations in order. -/
def sessionRun (s : SessionS) : List SessionEv → SessionS × List SentReply × List String
  | [] => (s, [], [])
  | e :: rest =>
    let stepped := sessionStep s e
    let tail := sessionRun stepped.1 rest
    (tail.1, stepped.2.1 ++ tail.2.1, stepped.2.2 ++ tail.2.2)

/-! ## Beacon fan-out (beaconthread.c, beaconsend.c) -/

/-- BEACONTHREADSTATE from beaconthread.h. -/
inductive BEACONTHREADSTATE where
  | btInvalid
  | btStarted
  | btCompleted
  | btHarvestable
deriving DecidableEq, Repr

/-- The campaign-level fields of BeaconThread that the start/stop/finished
logic reads and writes: its state and the count of running per-target
sender chains.  `running` is a C int and is modelled as an integer. -/
structure BeaconThreadS where
  state : BEACONTHREADSTATE
  running : Int
deriving DecidableEq, Repr

/-- `beaconthread_new`: state INVALID, no senders running. -/
def beaconthread_new : BeaconThreadS :=
  { state := .btInvalid, running := 0 }

/-- `beaconthread_start` with `n` target devices loaded: state STARTED
and one running sender chain per device. -/
def beaconthread_start (bt : BeaconThreadS) (n : Nat) : BeaconThreadS :=
  { state := .btStarted, running := bt.running + n }

/-- `beaconthread_stop`: request every sender to stop, move to
COMPLETED, and — if no sender is running — move to HARVESTABLE and fire
the finished callback.  The Bool reports whether the callback fired. -/
def beaconthread_stop (bt : BeaconThreadS) : BeaconThreadS × Bool :=
  let bt := { bt with state := .btCompleted }
  if bt.running = 0 then ({ bt with state := .btHarvestable }, true)
  else (bt, false)

/-- `beaconthread_finished`: one sender chain reported finished;
decrement the running count and, on reaching zero, move to HARVESTABLE
and fire the finished callback. -/
def beaconthread_finished (bt : BeaconThreadS) : BeaconThreadS × Bool :=
  let bt := { bt with running := bt.running - 1 }
  if bt.running = 0 then ({ bt with state := .btHarvestable }, true)
  else (bt, false)

/-- Campaign events: start with `n` loaded targets, a stop request, or a
per-target sender chain reporting finished. -/
inductive BeaconEv where
  | start (n : Nat)
  | stop
  | senderFinished
deriving DecidableEq, Repr

/-- Run a campaign over a trace of events, counting how many times the
finished callback fired. -/
def beaconRun (bt : BeaconThreadS) : List BeaconEv → BeaconThreadS × Nat
  | [] => (bt, 0)
  | e :: rest =>
    let stepped : BeaconThreadS × Bool :=
      match e with
      | .start n => (beaconthread_start bt n, false)
      | .stop => beaconthread_stop bt
      | .senderFinished => beaconthread_finished bt
    let tail := beaconRun stepped.1 rest
    (tail.1, (if stepped.2 then 1 else 0) + tail.2)

/-- The fields of BeaconSend involved in sending one beacon: the payload
buffer (`code`, a byte list) set by `beaconsend_set_code`. -/
structure BeaconSendS where
  code : List Nat
deriving DecidableEq, Repr

/-- `beaconsend_set_code`: clear the buffer and copy the payload in. -/
def beaconsend_set_code (bs : BeaconSendS) (code : List Nat) : BeaconSendS :=
  { bs with code := code }

/-- The bytes `beaconsend_write_connect` writes to the target's RFCOMM
stream when the connect succeeded: `g_output_stream_write(output, code,
buffer_get_pos(code))` — exactly the payload buffer.  On a failed
connect nothing is written. -/
def beaconsend_write_connect_bytes (bs : BeaconSendS) (connectOk : Bool) : List Nat :=
  if connectOk then bs.code else []

/-- Big-endian 4-byte encoding of a length, as used by
`buffer_append_lengthprepend` for the stream-channel framing.  This is
the framing the specification ascribes to the beacon write. -/
def be32 (n : Nat) : List Nat :=
  [n / 2 ^ 24 % 256, n / 2 ^ 16 % 256, n / 2 ^ 8 % 256, n % 256]

/-- The byte sequence the specification claims for a beacon send: the
4-byte big-endian length prefix followed by the payload. -/
def specBeaconFrame (payload : List Nat) : List Nat :=
  be32 payload.length ++ payload

/-! ## The rendezvous-point byte channel (servicervp.c)

The channel talks to the rendezvous server through libsoup: each
`soup_session_queue_message` issues an asynchronous HTTP request whose
callback fires exactly once, later, on the main loop;
`soup_session_cancel_message` marks a queued request so that its
callback fires with the given status.  We track the queued-but-not-yet-
completed requests explicitly, each with a fresh id, its kind (GET or
POST) and the status a cancellation stamped on it, if any. -/

/-- Kind of HTTP request in flight. -/
inductive ReqKind where
  | getReq
  | postReq
deriving DecidableEq, Repr

/-- The libsoup status classes servicervp.c dispatches on. -/
inductive SoupStatus where
  | ok
  | ioError
  | soupMalformed
  | tryAgain
  | cancelled
  | connFailure
deriving DecidableEq, Repr

/-- A queued request whose callback has not fired yet. -/
structure PendingReq where
  rid : Nat
  kind : ReqKind
  cancelStatus : Option SoupStatus
deriving DecidableEq, Repr

/-- The integer value of a BEACONTHREADSTATE enumerator (INVALID is -1). -/
def BEACONTHREADSTATE.toInt : BEACONTHREADSTATE → Int
  | .btInvalid => -1
  | .btStarted => 0
  | .btCompleted => 1
  | .btHarvestable => 2

/-- The ServiceRvp fields driving the read/write discipline, plus the
queue of in-flight soup requests. -/
structure RvpChannel where
  reading : Bool
  writing : Bool
  connected : Bool
  connections : Int
  msg : Option Nat
  retryPending : Bool
  stopping : Bool
  wallclockArmed : Bool
  beacons : Bool
  bt : BeaconThreadS
  pending : List PendingReq
  nextId : Nat
deriving DecidableEq, Repr

/-- `servicervp_new` (with the beacons flag left at its default false
and no beacon campaign started). -/
def servicervp_new : RvpChannel :=
  { reading := false
    writing := false
    connected := false
    connections := 0
    msg := none
    retryPending := false
    stopping := false
    wallclockArmed := false
    beacons := false
    bt := beaconthread_new
    pending := []
    nextId := 0 }

/-- Stamp a cancellation status on the queued request with the given id
(`soup_session_cancel_message`). -/
def cancelReq (pending : List PendingReq) (m : Nat) (st : SoupStatus) : List PendingReq :=
  pending.map fun r => if r.rid = m then { r with cancelStatus := some st } else r

/-- Events the channel surfaces to the handshake fsm that the claims
talk about. -/
inductive ChanEvent where
  | evConnected
  | evIncoming (payload : List Nat)
deriving DecidableEq, Repr

/-- `servicervp_stop_check`: when stopping, not reading, not writing, no
open soup connections and the beacon campaign is harvestable or was
never started, the stop callback fires and `stopping` is cleared. -/
def servicervp_stop_check (s : RvpChannel) : RvpChannel :=
  if s.stopping ∧ s.reading = false ∧ s.writing = false ∧ s.connections = 0 ∧
      (s.bt.state = .btHarvestable ∨ s.bt.state = .btInvalid) then
    { s with stopping := false }
  else s

/-- `servicervp_get`: issue a long-poll GET unless a read or a write is
already marked ongoing, in which case the request is dropped. -/
def servicervp_get (s : RvpChannel) : RvpChannel :=
  if s.reading = false ∧ s.writing = false then
    { s with reading := true
             connections := s.connections + 1
             msg := some s.nextId
             pending := s.pending ++ [{ rid := s.nextId, kind := .getReq, cancelStatus := none }]
             nextId := s.nextId + 1
             wallclockArmed := true }
  else s

/-- `servicervp_post`: issue a POST of the framed data unless a read or
a write is already marked ongoing, in which case the send is dropped. -/
def servicervp_post (s : RvpChannel) : RvpChannel :=
  if s.reading = false ∧ s.writing = false then
    { s with writing := true
             connections := s.connections + 1
             msg := some s.nextId
             pending := s.pending ++ [{ rid := s.nextId, kind := .postReq, cancelStatus := none }]
             nextId := s.nextId + 1
             wallclockArmed := true }
  else s

/-- `servicervp_incoming_connect`: on the first delivery of data, mark
the channel connected, tell the fsm, and stop the beacon campaign if
beacons were requested (the campaign's finished callback runs
`servicervp_stop_check`). -/
def servicervp_incoming_connect (s : RvpChannel) : RvpChannel × List ChanEvent :=
  if s.connected = false then
    let s := { s with connected := true }
    if s.beacons then
      let stopped := beaconthread_stop s.bt
      let s := { s with bt := stopped.1 }
      (if stopped.2 then servicervp_stop_check s else s, [.evConnected])
    else (s, [.evConnected])
  else (s, [])

/-- The beacon-stop step of `servicervp_stop`: when the campaign is in
a running state, stop it; the Bool reports whether its finished
callback fired (which runs `servicervp_stop_check`). -/
def servicervp_stop_beacons (s : RvpChannel) : RvpChannel × Bool :=
  if BEACONTHREADSTATE.toInt .btInvalid < s.bt.state.toInt ∧
      s.bt.state.toInt < BEACONTHREADSTATE.toInt .btHarvestable then
    let stopped := beaconthread_stop s.bt
    ({ s with bt := stopped.1 }, stopped.2)
  else (s, false)

/-- The read-cancellation step of `servicervp_stop`: only an in-flight
read is cancelled; a write is left to finish of its own accord. -/
def servicervp_stop_cancel_read (s : RvpChannel) : RvpChannel :=
  match s.msg with
  | some m =>
    if s.reading then
      { s with pending := cancelReq s.pending m .cancelled, connected := false }
    else s
  | none => s

/-- `servicervp_stop`: once only, stop the fsm and the beacon campaign
(when it is in a running state), cancel an in-flight read (writes are
left to finish), stop the wall-clock watchdog and check for full stop. -/
def servicervp_stop (s : RvpChannel) : RvpChannel :=
  if s.stopping = false then
    let s := { s with stopping := true }
    let sb := servicervp_stop_beacons s
    let s := if sb.2 then servicervp_stop_check sb.1 else sb.1
    let s := servicervp_stop_cancel_read s
    let s := { s with wallclockArmed := false }
    servicervp_stop_check s
  else s

/-- `servicervp_read_complete` on a GET whose effective status is
`status` and whose response body is `body`: the wall-clock watchdog is
stopped, the read is accounted off, and then
  * a successful body longer than 4 bytes whose first byte is not
    `{` (byte 123) connects (first time) and delivers the payload after
    the 4-byte prefix to the fsm;
  * a successful body starting with `{` or no longer than 4 bytes
    restarts the GET;
  * IO/Malformed/TryAgain errors restart the GET only when the dying
    request was still the currently-scheduled one;
  * a cancellation checks for full stop;
  * any other failure schedules a single 1000 ms retry. -/
def servicervp_read_complete (s : RvpChannel) (mid : Nat) (status : SoupStatus)
    (body : List Nat) : RvpChannel × List ChanEvent :=
  let s := { s with wallclockArmed := false }
  let msgalive := s.msg
  let s := { s with reading := false, connections := s.connections - 1, msg := none }
  match status with
  | .ok =>
    if body.length > 4 then
      if body.headD 0 = 123 then (servicervp_get s, [])
      else
        let conn := servicervp_incoming_connect s
        (conn.1, conn.2 ++ [.evIncoming (body.drop 4)])
    else (servicervp_get s, [])
  | .ioError => if msgalive = some mid then (servicervp_get s, []) else (servicervp_stop_check s, [])
  | .soupMalformed => if msgalive = some mid then (servicervp_get s, []) else (servicervp_stop_check s, [])
  | .tryAgain => if msgalive = some mid then (servicervp_get s, []) else (servicervp_stop_check s, [])
  | .cancelled => (servicervp_stop_check s, [])
  | .connFailure =>
    if s.retryPending = false then ({ s with retryPending := true }, []) else (s, [])

/-- `servicervp_write_complete` on a POST with effective status
`status`: account the write off; on success restart the long poll when
connected; on cancellation check for full stop; on any other failure
stop the service. -/
def servicervp_write_complete (s : RvpChannel) (status : SoupStatus) : RvpChannel :=
  let s := { s with wallclockArmed := false, writing := false,
                    connections := s.connections - 1, msg := none }
  match status with
  | .ok => if s.connected then servicervp_get s else s
  | .cancelled => servicervp_stop_check s
  | _ => servicervp_stop s

/-- `servicervp_wallclock_timeout` with the elapsed-time test already
decided: on expiry with a current message, cancel it with IO_ERROR and,
if it was a read, clear the read accounting and start a fresh GET
immediately. -/
def servicervp_wallclock_timeout (s : RvpChannel) (expired : Bool) : RvpChannel :=
  if expired then
    match s.msg with
    | some m =>
      let s := { s with pending := cancelReq s.pending m .ioError, wallclockArmed := false }
      if s.reading then servicervp_get { s with reading := false, msg := none }
      else s
    | none => s
  else s

/-- `servicervp_retry_connection`: the 1000 ms retry fires; when not
stopping and no message is current, issue a fresh GET. -/
def servicervp_retry_connection (s : RvpChannel) : RvpChannel :=
  let s := { s with retryPending := false }
  if s.stopping = false then
    match s.msg with
    | none => servicervp_get s
    | some _ => servicervp_stop_check s
  else servicervp_stop_check s

/-- `servicervp_error` (fsm error callback): cancel the current message,
drop the connection and stop the service. -/
def servicervp_error (s : RvpChannel) : RvpChannel :=
  let s :=
    match s.msg with
    | some m => { s with pending := cancelReq s.pending m .cancelled, connected := false }
    | none => s
  let s := { s with wallclockArmed := false }
  servicervp_stop s

/-- `servicervp_disconnect` (fsm disconnect callback): cancel an
in-flight read and mark the channel disconnected. -/
def servicervp_disconnect (s : RvpChannel) : RvpChannel :=
  let s :=
    match s.msg with
    | some m => if s.reading then { s with pending := cancelReq s.pending m .cancelled } else s
    | none => s
  { s with wallclockArmed := false, connected := false }

/-- Environment events delivered to the channel: the fsm listen and
write callbacks, the completion of a queued request (with the status
and body the network produced — a cancellation's stamped status takes
precedence), the wall-clock tick, the retry timer, a stop request, and
the fsm error/disconnect callbacks. -/
inductive RvpEvent where
  | listen
  | fsmWrite
  | complete (mid : Nat) (status : SoupStatus) (body : List Nat)
  | wallclock (expired : Bool)
  | retryFire
  | stopReq
  | fsmError
  | fsmDisconnect
deriving DecidableEq, Repr

/-- One environment event processed by the channel. -/
def rvpStep (s : RvpChannel) (ev : RvpEvent) : RvpChannel × List ChanEvent :=
  match ev with
  | .listen => (servicervp_get s, [])
  | .fsmWrite => (servicervp_post s, [])
  | .complete mid status body =>
    match s.pending.find? (fun r => r.rid = mid) with
    | some req =>
      let s := { s with pending := s.pending.filter (fun r => r.rid ≠ mid) }
      let eff := req.cancelStatus.getD status
      match req.kind with
      | .getReq => servicervp_read_complete s mid eff body
      | .postReq => (servicervp_write_complete s eff, [])
    | none => (s, [])
  | .wallclock expired => (servicervp_wallclock_timeout s expired, [])
  | .retryFire => if s.retryPending then (servicervp_retry_connection s, []) else (s, [])
  | .stopReq => (servicervp_stop s, [])
  | .fsmError => (servicervp_error s, [])
  | .fsmDisconnect => (servicervp_disconnect s, [])

/-- Run the channel over a trace of environment events. -/
def rvpRun (s : RvpChannel) : List RvpEvent → RvpChannel × List ChanEvent
  | [] => (s, [])
  | e :: rest =>
    let stepped := rvpStep s e
    let tail := rvpRun stepped.1 rest
    (tail.1, stepped.2 ++ tail.2)

/-- Number of queued GET requests (cancelled ones included). -/
def pendingGets (s : RvpChannel) : Nat :=
  (s.pending.filter (fun r => r.kind = .getReq)).length

/-- Number of queued POST requests (cancelled ones included). -/
def pendingPosts (s : RvpChannel) : Nat :=
  (s.pending.filter (fun r => r.kind = .postReq)).length

/-- Number of live (not cancelled) GET requests in flight. -/
def liveGets (s : RvpChannel) : Nat :=
  (s.pending.filter (fun r => r.kind = .getReq ∧ r.cancelStatus = none)).length

/-- Number of live (not cancelled) POST requests in flight. -/
def livePosts (s : RvpChannel) : Nat :=
  (s.pending.filter (fun r => r.kind = .postReq ∧ r.cancelStatus = none)).length

/-! ## Registry well-formedness and channel invariant predicates -/

/-- Well-formedness of the session registry: the slot table has MAX
entries, every slot below the cursor is occupied, the cursor sits on a
free slot (or at MAX), the live list has no duplicates, and a slot is
occupied exactly when its handle is on the live list. -/
def storeWF (s : ProcessStore) : Prop :=
  s.items.length = MAX_SIMULTANEOUS_AUTHS ∧
  s.nextAvailable ≤ MAX_SIMULTANEOUS_AUTHS ∧
  (∀ i, i < s.nextAvailable → (s.items.getD i none).isSome = true) ∧
  (s.nextAvailable < MAX_SIMULTANEOUS_AUTHS → s.items.getD s.nextAvailable none = none) ∧
  s.first.Nodup ∧
  (∀ i, i ∈ s.first → i < MAX_SIMULTANEOUS_AUTHS ∧ (s.items.getD i none).isSome = true) ∧
  (∀ i, i < MAX_SIMULTANEOUS_AUTHS → (s.items.getD i none).isSome = true → i ∈ s.first)

/-- Invariant of the rendezvous channel request discipline: at most one
soup request is queued, and its kind matches the `reading`/`writing`
flag that is set (with the other flag clear); with no queued request
both flags are clear. -/
def rvpINV (s : RvpChannel) : Prop :=
  (s.pending = [] → s.reading = false ∧ s.writing = false) ∧
  (∀ r, s.pending = [r] →
    (r.kind = .getReq → s.reading = true ∧ s.writing = false) ∧
    (r.kind = .postReq → s.writing = true ∧ s.reading = false)) ∧
  s.pending.length ≤ 1

/-! ## Helper lemmas: configuration overlay -/

theorem readKeyContinuous_anyuser (cfg : AuthConfig) (obj : List (String × JsonVal)) :
    (readKeyContinuous cfg obj).anyuser = cfg.anyuser := by
  unfold readKeyContinuous
  rcases json_get obj "continuous" with _ | v
  · rfl
  · cases v <;> rfl

theorem readKeyChanneltype_anyuser (cfg : AuthConfig) (obj : List (String × JsonVal)) :
    (readKeyChanneltype cfg obj).anyuser = cfg.anyuser := by
  unfold readKeyChanneltype
  rcases json_get obj "channeltype" with _ | v
  · rfl
  · cases v with
    | jstr s => simp only []; split <;> split <;> rfl
    | _ => rfl

theorem readKeyBeacons_anyuser (cfg : AuthConfig) (obj : List (String × JsonVal)) :
    (readKeyBeacons cfg obj).anyuser = cfg.anyuser := by
  unfold readKeyBeacons
  rcases json_get obj "beacons" with _ | v
  · rfl
  · cases v <;> rfl

theorem readKeyTimeout_anyuser (cfg : AuthConfig) (obj : List (String × JsonVal)) :
    (readKeyTimeout cfg obj).anyuser = cfg.anyuser := by
  unfold readKeyTimeout
  rcases json_get obj "timeout" with _ | v
  · rfl
  · cases v <;> rfl

theorem readKeyRvpurl_anyuser (cfg : AuthConfig) (obj : List (String × JsonVal)) :
    (readKeyRvpurl cfg obj).anyuser = cfg.anyuser := by
  unfold readKeyRvpurl
  rcases json_get obj "rvpurl" with _ | v
  · rfl
  · cases v <;> rfl

theorem readKeyConfigdir_anyuser (cfg : AuthConfig) (obj : List (String × JsonVal)) :
    (readKeyConfigdir cfg obj).anyuser = cfg.anyuser := by
  unfold readKeyConfigdir
  rcases json_get obj "configdir" with _ | v
  · rfl
  · cases v <;> rfl

theorem readKeyAnyuser_anyuser (cfg : AuthConfig) (obj : List (String × JsonVal)) :
    (readKeyAnyuser cfg obj).anyuser =
      (match json_get obj "anyuser" with
        | some (.jint n) => (n != 0 : Bool)
        | _ => cfg.anyuser) := by
  unfold readKeyAnyuser
  rcases json_get obj "anyuser" with _ | v
  · rfl
  · cases v <;> rfl

/-- The `anyuser` field produced by `authconfig_read_json` depends only
on the caller string and the incoming `anyuser` value. -/
theorem read_json_anyuser (cfg : AuthConfig) (j : JsonString) :
    (authconfig_read_json cfg j).1.anyuser =
      (match j with
        | .wellformed obj =>
          (match json_get obj "anyuser" with
            | some (.jint n) => (n != 0 : Bool)
            | _ => cfg.anyuser)
        | _ => cfg.anyuser) := by
  cases j with
  | empty => rfl
  | malformed => rfl
  | wellformed obj =>
    show (readKeyConfigdir _ obj).anyuser = _
    rw [readKeyConfigdir_anyuser, readKeyRvpurl_anyuser, readKeyTimeout_anyuser,
      readKeyAnyuser_anyuser]
    rw [readKeyBeacons_anyuser, readKeyChanneltype_anyuser, readKeyContinuous_anyuser]

/-- A failing `authconfig_read_json` leaves the config unchanged. -/
theorem read_json_fail_id (cfg : AuthConfig) (j : JsonString)
    (h : (authconfig_read_json cfg j).2 = false) : (authconfig_read_json cfg j).1 = cfg := by
  cases j with
  | empty => rfl
  | malformed => rfl
  | wellformed obj => simp [authconfig_read_json] at h

/-! ## Claim C1: the locked any_user field -/

/-- Claim C1: after the configuration overlay (defaults, then file, then
caller) the effective `anyuser` value never comes from the file: for a
successful overlay it equals exactly what the caller string alone would
have produced from the prior value, for a failed overlay it is the prior
value, and an integer-typed `anyuser` key in the caller string does set
it. -/
theorem c1_anyuser_locked (cfg : AuthConfig) (f : FileContent) (j : JsonString) :
    ((auththread_config cfg f j).2 = true →
      (auththread_config cfg f j).1.anyuser = (authconfig_read_json cfg j).1.anyuser)
    ∧ ((auththread_config cfg f j).2 = false →
      (auththread_config cfg f j).1.anyuser = cfg.anyuser)
    ∧ (∀ (obj : List (String × JsonVal)) (n : Int),
        json_get obj "anyuser" = some (.jint n) →
        (authconfig_read_json cfg (.wellformed obj)).1.anyuser = (n != 0)) := by
  have hconf : auththread_config cfg f j =
      (if (authconfig_load_json cfg f).2 then
        authconfig_read_json { (authconfig_load_json cfg f).1 with anyuser := cfg.anyuser } j
      else ({ (authconfig_load_json cfg f).1 with anyuser := cfg.anyuser }, false)) := rfl
  refine ⟨?_, ?_, ?_⟩
  · intro hsucc
    rw [hconf] at hsucc ⊢
    by_cases hl : (authconfig_load_json cfg f).2 = true
    · rw [if_pos hl]
      rw [read_json_anyuser, read_json_anyuser]
    · rw [if_neg hl] at hsucc
      simp at hsucc
  · intro hfail
    rw [hconf] at hfail ⊢
    by_cases hl : (authconfig_load_json cfg f).2 = true
    · rw [if_pos hl] at hfail ⊢
      have hid := read_json_fail_id _ j hfail
      rw [hid]
    · rw [if_neg hl]
  · intro obj n h
    rw [read_json_anyuser]
    simp only [h]

/-- Witness for C1: with the file setting `anyuser` to 1 and the caller
leaving it at 0, the overlay succeeds and the effective value is what
the caller string alone produces; with the caller setting 1 it is set. -/
theorem c1_anyuser_locked_witness :
    ((auththread_config authconfig_new
        (.contents (.wellformed [("anyuser", .jint 1)]))
        (.wellformed [("anyuser", .jint 0)])).1.anyuser =
      (authconfig_read_json authconfig_new
        (.wellformed [("anyuser", .jint 0)])).1.anyuser)
    ∧ (authconfig_read_json authconfig_new
        (.wellformed [("anyuser", .jint 1)])).1.anyuser = ((1 : Int) != 0) :=
  ⟨(c1_anyuser_locked authconfig_new
      (.contents (.wellformed [("anyuser", .jint 1)]))
      (.wellformed [("anyuser", .jint 0)])).1 (by decide),
   (c1_anyuser_locked authconfig_new
      (.contents (.wellformed [("anyuser", .jint 1)]))
      (.wellformed [("anyuser", .jint 0)])).2.2 [("anyuser", .jint 1)] 1 (by decide)⟩

/-! ## Claim C10: timeout is only read from a decimal-typed value -/

theorem readKeyContinuous_timeout (cfg : AuthConfig) (obj : List (String × JsonVal)) :
    (readKeyContinuous cfg obj).timeout = cfg.timeout := by
  unfold readKeyContinuous
  rcases json_get obj "continuous" with _ | v
  · rfl
  · cases v <;> rfl

theorem readKeyChanneltype_timeout (cfg : AuthConfig) (obj : List (String × JsonVal)) :
    (readKeyChanneltype cfg obj).timeout = cfg.timeout := by
  unfold readKeyChanneltype
  rcases json_get obj "channeltype" with _ | v
  · rfl
  · cases v with
    | jstr s => simp only []; split <;> split <;> rfl
    | _ => rfl

theorem readKeyBeacons_timeout (cfg : AuthConfig) (obj : List (String × JsonVal)) :
    (readKeyBeacons cfg obj).timeout = cfg.timeout := by
  unfold readKeyBeacons
  rcases json_get obj "beacons" with _ | v
  · rfl
  · cases v <;> rfl

theorem readKeyAnyuser_timeout (cfg : AuthConfig) (obj : List (String × JsonVal)) :
    (readKeyAnyuser cfg obj).timeout = cfg.timeout := by
  unfold readKeyAnyuser
  rcases json_get obj "anyuser" with _ | v
  · rfl
  · cases v <;> rfl

theorem readKeyRvpurl_timeout (cfg : AuthConfig) (obj : List (String × JsonVal)) :
    (readKeyRvpurl cfg obj).timeout = cfg.timeout := by
  unfold readKeyRvpurl
  rcases json_get obj "rvpurl" with _ | v
  · rfl
  · cases v <;> rfl

theorem readKeyConfigdir_timeout (cfg : AuthConfig) (obj : List (String × JsonVal)) :
    (readKeyConfigdir cfg obj).timeout = cfg.timeout := by
  unfold readKeyConfigdir
  rcases json_get obj "configdir" with _ | v
  · rfl
  · cases v <;> rfl

theorem readKeyTimeout_timeout (cfg : AuthConfig) (obj : List (String × JsonVal)) :
    (readKeyTimeout cfg obj).timeout =
      (match json_get obj "timeout" with
        | some (.jdec d) => d
        | _ => cfg.timeout) := by
  unfold readKeyTimeout
  rcases json_get obj "timeout" with _ | v
  · rfl
  · cases v <;> rfl

/-- The `timeout` field produced by `authconfig_read_json` on a
well-formed dictionary. -/
theorem read_json_wf_timeout (cfg : AuthConfig) (obj : List (String × JsonVal)) :
    (authconfig_read_json cfg (.wellformed obj)).1.timeout =
      (match json_get obj "timeout" with
        | some (.jdec d) => d
        | _ => cfg.timeout) := by
  show (readKeyConfigdir _ obj).timeout = _
  rw [readKeyConfigdir_timeout, readKeyRvpurl_timeout, readKeyTimeout_timeout]
  rw [readKeyAnyuser_timeout, readKeyBeacons_timeout, readKeyChanneltype_timeout,
    readKeyContinuous_timeout]

/-- Claim C10: the configuration parser updates `timeout` only when the
`timeout` key is typed as a decimal; an integer-typed `timeout` value
leaves the field unchanged. -/
theorem c10_timeout_decimal_only (cfg : AuthConfig) (obj : List (String × JsonVal)) :
    (∀ n : Int, json_get obj "timeout" = some (.jint n) →
      (authconfig_read_json cfg (.wellformed obj)).1.timeout = cfg.timeout)
    ∧ (∀ d : Rat, json_get obj "timeout" = some (.jdec d) →
      (authconfig_read_json cfg (.wellformed obj)).1.timeout = d) := by
  constructor
  · intro n h
    rw [read_json_wf_timeout]
    simp only [h]
  · intro d h
    rw [read_json_wf_timeout]
    simp only [h]

/-- Witness for C10: a `timeout` of integer 20 leaves the default 0 in
place; a decimal 5 is taken. -/
theorem c10_timeout_decimal_only_witness :
    (authconfig_read_json authconfig_new
      (.wellformed [("timeout", .jint 20)])).1.timeout = authconfig_new.timeout
    ∧ (authconfig_read_json authconfig_new
      (.wellformed [("timeout", .jdec 5)])).1.timeout = 5 :=
  ⟨(c10_timeout_decimal_only authconfig_new [("timeout", .jint 20)]).1 20 (by decide),
   (c10_timeout_decimal_only authconfig_new [("timeout", .jdec 5)]).2 5 (by decide)⟩

/-! ## Claim C7: bytes written by the beacon sender -/

/-- Counterexample to C7: for the one-byte payload 65 the bytes written
by `beaconsend_write_connect` are just the payload, not the 4-byte
big-endian length prefix followed by the payload that the specification
claims. -/
theorem c7_counterexample :
    beaconsend_write_connect_bytes (beaconsend_set_code { code := [] } [65]) true = [65]
    ∧ specBeaconFrame [65] = [0, 0, 0, 1, 65]
    ∧ beaconsend_write_connect_bytes (beaconsend_set_code { code := [] } [65]) true ≠
        specBeaconFrame [65] := by
  refine ⟨rfl, rfl, ?_⟩
  decide

/-- Claim C7 amended: for every beacon target and every send attempt
that reaches the write step, the bytes written to the target's stream
are exactly the campaign payload (the beacon code string), with no
length prefix; an attempt whose connect failed writes nothing. -/
theorem c7_write_bytes (bs : BeaconSendS) (code : List Nat) :
    beaconsend_write_connect_bytes (beaconsend_set_code bs code) true = code
    ∧ (∀ ok : Bool, beaconsend_write_connect_bytes bs ok = if ok then bs.code else []) := by
  constructor
  · rfl
  · intro ok
    cases ok <;> rfl

/-! ## Claim C9: the campaign finished callback -/

/-- Counterexample to C9: `beaconthread_stop` fires the finished
callback whenever no sender is running, so a stop on a campaign that
was never started fires it although start was never called, and a
second stop after the callback has already fired fires it again. -/
theorem c9_counterexample :
    (beaconRun beaconthread_new [.stop]).2 = 1
    ∧ (beaconRun beaconthread_new [.stop, .stop]).2 = 2 := by
  constructor <;> rfl

theorem beaconthread_finished_running (bt : BeaconThreadS) :
    (beaconthread_finished bt).1.running = bt.running - 1 := by
  simp only [beaconthread_finished]
  split <;> rfl

theorem beaconthread_finished_fired (bt : BeaconThreadS) :
    (beaconthread_finished bt).2 = decide (bt.running - 1 = 0) := by
  simp only [beaconthread_finished]
  split
  · next hc => simp [hc]
  · next hc => simp [hc]

theorem beaconthread_stop_running (bt : BeaconThreadS) :
    (beaconthread_stop bt).1.running = bt.running := by
  simp only [beaconthread_stop]
  split <;> rfl

theorem beaconthread_stop_fired (bt : BeaconThreadS) :
    (beaconthread_stop bt).2 = decide (bt.running = 0) := by
  simp only [beaconthread_stop]
  split
  · next hc => simp [hc]
  · next hc => simp [hc]

/-- Drain lemma: with `k + 1` senders still running, the sequence of
their finished reports fires the callback exactly once, on the last
one, and leaves the campaign harvestable. -/
theorem beaconRun_drain (k : Nat) (bt : BeaconThreadS)
    (h : bt.running = (k : Int) + 1) :
    (beaconRun bt (List.replicate (k + 1) .senderFinished)).2 = 1
    ∧ (beaconRun bt (List.replicate (k + 1) .senderFinished)).1.state = .btHarvestable := by
  induction k generalizing bt with
  | zero =>
    have h1 : bt.running - 1 = 0 := by omega
    simp [List.replicate, beaconRun, beaconthread_finished, h1]
  | succ m ih =>
    have hrun : (beaconthread_finished bt).1.running = (m : Int) + 1 := by
      rw [beaconthread_finished_running, h]
      push_cast
      ring
    have hfired : (beaconthread_finished bt).2 = false := by
      rw [beaconthread_finished_fired]
      simp only [decide_eq_false_iff_not]
      omega
    have hrec := ih (beaconthread_finished bt).1 hrun
    constructor
    · rw [List.replicate_succ]
      simp only [beaconRun]
      rw [hfired]
      simpa using hrec.1
    · rw [List.replicate_succ]
      simp only [beaconRun]
      exact hrec.2

/-- Claim C9 amended: when start is called once with `n` targets, stop
is called exactly once afterwards, and each of the `n` per-target
chains reports finished exactly once after the stop (senders only
finish once stopping), the finished callback fires exactly once and the
campaign ends harvestable.  Without these constraints the callback can
fire with no start and can fire twice (see the counterexample). -/
theorem c9_finished_once (n : Nat) :
    (beaconRun beaconthread_new
      (.start n :: .stop :: List.replicate n .senderFinished)).2 = 1
    ∧ (beaconRun beaconthread_new
      (.start n :: .stop :: List.replicate n .senderFinished)).1.state = .btHarvestable := by
  cases n with
  | zero => constructor <;> rfl
  | succ k =>
    have hbt : (beaconthread_stop (beaconthread_start beaconthread_new (k + 1))).1.running
        = (k : Int) + 1 := by
      rw [beaconthread_stop_running]
      show (0 : Int) + ((k + 1 : Nat) : Int) = (k : Int) + 1
      push_cast
      ring
    have hnofire : (beaconthread_stop (beaconthread_start beaconthread_new (k + 1))).2
        = false := by
      rw [beaconthread_stop_fired]
      simp only [decide_eq_false_iff_not]
      show ¬((0 : Int) + ((k + 1 : Nat) : Int) = 0)
      push_cast
      omega
    have hdrain := beaconRun_drain k _ hbt
    constructor
    · simp only [beaconRun]
      rw [hnofire]
      simpa using hdrain.1
    · simp only [beaconRun]
      exact hdrain.2

/-! ## Claim C2: one reply per StartAuth and per CompleteAuth call -/

/-- Claim C2 is violated by the code: `auththread_start_auth` replies to
the StartAuth invocation but does not clear the stored
object/invocation pair, so when the handshake resolves (here: AuthFailed)
before the CompleteAuth dbus call arrives,
`auththread_complete_auth_reply` sends a second reply on the very same
invocation.  Invocation 1 — the StartAuth call — receives two replies,
and the stored reply slot is used twice. -/
theorem c2_reply_slot_reused :
    (sessionRun (sessionInit false "alice")
      [.startAuthCall 1, .fsmUpdate .fsmAuthFailed]).2.1 =
      [{ inv := 1, kind := .startAuthReply, success := true },
       { inv := 1, kind := .completeAuthReply, success := false }]
    ∧ ((sessionRun (sessionInit false "alice")
        [.startAuthCall 1, .fsmUpdate .fsmAuthFailed]).2.1.filter
          (fun r => r.inv = 1)).length = 2 := by
  constructor <;> rfl

/-! ## Claim C6: when the screen-lock command runs -/

/-- Counterexample to C6: a session with the continuous option set that
is stopped without ever authenticating (its success flag still false,
it never reached Continuing) runs the screen-lock command for its
username, contradicting "a session that never authenticated
successfully never triggers the lock command". -/
theorem c6_counterexample :
    (sessionRun (sessionInit true "alice") [.startAuthCall 1, .serviceStopped]).2.2 =
      ["alice"]
    ∧ (sessionRun (sessionInit true "alice") [.startAuthCall 1, .serviceStopped]).1.result =
      false := by
  constructor <;> rfl

/-- Claim C6 amended: the screen-lock command is invoked for the
session's username exactly in these cases: when the fsm reports Fin or
Error while the recorded success flag is true, and on the
service-stopped callback whenever the session's configuration has
continuous mode set — regardless of whether the session ever
authenticated or ever reached the Continuing state.  No other event
locks. -/
theorem c6_lock_conditions (s : SessionS) :
    (sessionStep s (.fsmUpdate .fsmFin)).2.2 = (if s.result then [s.username] else [])
    ∧ (sessionStep s (.fsmUpdate .fsmError)).2.2 = (if s.result then [s.username] else [])
    ∧ (sessionStep s .serviceStopped).2.2 = (if s.continuousCfg then [s.username] else [])
    ∧ (∀ inv : Nat, (sessionStep s (.startAuthCall inv)).2.2 = [])
    ∧ (∀ inv : Nat, (sessionStep s (.completeAuthCall inv)).2.2 = [])
    ∧ (sessionStep s (.fsmUpdate .fsmStart)).2.2 = []
    ∧ (sessionStep s (.fsmUpdate .fsmAuthenticated)).2.2 = []
    ∧ (sessionStep s (.fsmUpdate .fsmAuthFailed)).2.2 = []
    ∧ (sessionStep s (.fsmUpdate .fsmOther)).2.2 = [] := by
  refine ⟨rfl, rfl, rfl, fun inv => rfl, fun inv => ?_, rfl, rfl, rfl, rfl⟩
  simp only [sessionStep]
  split <;> rfl

/-! ## Claim C3: CompleteAuth with a negative or unknown handle -/

/-- Counterexample to C3: a CompleteAuth call with the non-negative
handle 0 on a store with no allocated sessions receives no reply at
all, not the ("", "", false) reply the claim states. -/
theorem c3_counterexample :
    (complete_auth processstore_new 7 0).2.2 = none
    ∧ (complete_auth processstore_new 7 0).2.2 ≠
        some { user := "", token := "", success := false } := by
  constructor
  · rfl
  · decide

/-- Claim C3 amended: a CompleteAuth call whose handle is negative is
replied ("", "", false); a call whose handle is non-negative but does
not refer to a currently allocated session emits no reply at all (the
dbus call is left unanswered). -/
theorem c3_unknown_handle_reply (store : ProcessStore) (inv : Nat) (handle : Int) :
    (handle < 0 →
      (complete_auth store inv handle).2.2 =
        some { user := "", token := "", success := false })
    ∧ (0 ≤ handle → processstore_get_auththread store handle = none →
      (complete_auth store inv handle).2.2 = none) := by
  constructor
  · intro hneg
    unfold complete_auth
    rw [if_neg (by omega)]
  · intro hpos hnone
    unfold complete_auth
    rw [if_pos hpos, hnone]

/-- Witness for C3 (amended): handle -1 on the empty store is replied
("", "", false); handle 3 on the empty store gets no reply. -/
theorem c3_unknown_handle_reply_witness :
    (complete_auth processstore_new 7 (-1)).2.2 =
      some { user := "", token := "", success := false }
    ∧ (complete_auth processstore_new 7 3).2.2 = none :=
  ⟨(c3_unknown_handle_reply processstore_new 7 (-1)).1 (by decide),
   (c3_unknown_handle_reply processstore_new 7 3).2 (by decide) (by decide)⟩

/-! ## Claim C5: when a GET response yields an Incoming event -/

/-- Claim C5: for every successful long-poll GET response, an Incoming
event is delivered exactly when the body is longer than 4 bytes and its
first byte is not `{` (byte 123); the payload delivered is the body
after the 4-byte prefix; and a successful response whose body begins
with `{` delivers no event at all and immediately restarts the GET
(the in-flight read flag is set again).  The write-idle hypothesis
holds whenever a read is in flight (see the channel invariant). -/
theorem c5_incoming_iff (s : RvpChannel) (mid : Nat) (body : List Nat)
    (hw : s.writing = false) :
    ((∃ p, ChanEvent.evIncoming p ∈ (servicervp_read_complete s mid .ok body).2) ↔
      (body.length > 4 ∧ body.headD 0 ≠ 123))
    ∧ (body.length > 4 → body.headD 0 ≠ 123 →
        ChanEvent.evIncoming (body.drop 4) ∈ (servicervp_read_complete s mid .ok body).2)
    ∧ (body.headD 0 = 123 →
        (servicervp_read_complete s mid .ok body).2 = []
        ∧ (servicervp_read_complete s mid .ok body).1.reading = true) := by
  by_cases hlen : body.length > 4
  · by_cases hhead : body.headD 0 = 123
    · have hhead' : body.head?.getD 0 = 123 := by
        rw [← List.headD_eq_head?]
        exact hhead
      refine ⟨?_, ?_, ?_⟩
      · simp [servicervp_read_complete, hlen, hhead, hhead']
      · intro _ hne
        exact absurd hhead hne
      · intro _
        constructor
        · simp [servicervp_read_complete, hlen, hhead']
        · simp [servicervp_read_complete, hlen, hhead', servicervp_get, hw]
    · have hhead' : ¬body.head?.getD 0 = 123 := by
        rw [← List.headD_eq_head?]
        exact hhead
      refine ⟨?_, ?_, ?_⟩
      · simp only [servicervp_read_complete, if_pos hlen, if_neg hhead']
        constructor
        · intro _
          exact ⟨hlen, hhead⟩
        · intro _
          refine ⟨body.drop 4, ?_⟩
          rw [if_neg hhead]
          simp
      · intro _ _
        simp [servicervp_read_complete, hlen, hhead']
      · intro hc
        exact absurd hc hhead
  · refine ⟨?_, ?_, ?_⟩
    · simp [servicervp_read_complete, hlen]
    · intro hc
      exact absurd hc hlen
    · intro _
      constructor
      · simp [servicervp_read_complete, hlen]
      · simp [servicervp_read_complete, hlen, servicervp_get, hw]

/-- Witness for C5: a channel with a read in flight, a 6-byte body not
starting with `{` delivers Incoming with the last two bytes; the body
`[123,0,0,0,0,0]` delivers nothing and restarts the GET. -/
theorem c5_incoming_iff_witness :
    (ChanEvent.evIncoming [4, 5] ∈
      (servicervp_read_complete
        { servicervp_new with reading := true, connections := 1 } 0 .ok
        [9, 1, 2, 3, 4, 5]).2)
    ∧ ((servicervp_read_complete
        { servicervp_new with reading := true, connections := 1 } 0 .ok
        [123, 0, 0, 0, 0, 0]).2 = []
      ∧ (servicervp_read_complete
        { servicervp_new with reading := true, connections := 1 } 0 .ok
        [123, 0, 0, 0, 0, 0]).1.reading = true) :=
  ⟨(c5_incoming_iff { servicervp_new with reading := true, connections := 1 } 0
      [9, 1, 2, 3, 4, 5] (by decide)).2.1 (by decide) (by decide),
   (c5_incoming_iff { servicervp_new with reading := true, connections := 1 } 0
      [123, 0, 0, 0, 0, 0] (by decide)).2.2 (by decide)⟩

/-! ## Claim C8: at most one read and one write in flight -/

theorem rvpINV_cases (s : RvpChannel) (h : rvpINV s) :
    (s.pending = [] ∧ s.reading = false ∧ s.writing = false)
    ∨ (∃ r, s.pending = [r] ∧
        ((r.kind = .getReq ∧ s.reading = true ∧ s.writing = false)
        ∨ (r.kind = .postReq ∧ s.writing = true ∧ s.reading = false))) := by
  obtain ⟨h0, h1, hlen⟩ := h
  cases hp : s.pending with
  | nil => exact Or.inl ⟨rfl, h0 hp⟩
  | cons r rest =>
    cases rest with
    | nil =>
      refine Or.inr ⟨r, rfl, ?_⟩
      cases hk : r.kind with
      | getReq =>
        exact Or.inl ⟨rfl, ((h1 r hp).1 hk).1, ((h1 r hp).1 hk).2⟩
      | postReq =>
        exact Or.inr ⟨rfl, ((h1 r hp).2 hk).1, ((h1 r hp).2 hk).2⟩
    | cons r2 l =>
      rw [hp] at hlen
      simp at hlen

theorem rvpINV_of_idle (s : RvpChannel) (hp : s.pending = [])
    (hr : s.reading = false) (hw : s.writing = false) : rvpINV s := by
  refine ⟨fun _ => ⟨hr, hw⟩, ?_, ?_⟩
  · intro r hr1
    rw [hp] at hr1
    cases hr1
  · rw [hp]
    simp

theorem rvpINV_of_get (s : RvpChannel) (r : PendingReq) (hp : s.pending = [r])
    (hk : r.kind = .getReq) (hr : s.reading = true) (hw : s.writing = false) :
    rvpINV s := by
  refine ⟨?_, ?_, ?_⟩
  · intro h0
    rw [hp] at h0
    cases h0
  · intro r' hr'
    rw [hp] at hr'
    injection hr' with hrr _
    subst hrr
    refine ⟨fun _ => ⟨hr, hw⟩, fun hpost => ?_⟩
    rw [hk] at hpost
    cases hpost
  · rw [hp]
    simp

theorem rvpINV_of_post (s : RvpChannel) (r : PendingReq) (hp : s.pending = [r])
    (hk : r.kind = .postReq) (hw : s.writing = true) (hr : s.reading = false) :
    rvpINV s := by
  refine ⟨?_, ?_, ?_⟩
  · intro h0
    rw [hp] at h0
    cases h0
  · intro r' hr'
    rw [hp] at hr'
    injection hr' with hrr _
    subst hrr
    refine ⟨fun hget => ?_, fun _ => ⟨hw, hr⟩⟩
    rw [hk] at hget
    cases hget
  · rw [hp]
    simp

/-- Cancellation preserves the kinds and the length of the queue, so
the invariant transfers across any update that only stamps a
cancellation (or leaves the queue alone) and keeps both flags. -/
theorem rvpINV_frame (s t : RvpChannel) (h : rvpINV s)
    (hp : t.pending = s.pending ∨ ∃ m st, t.pending = cancelReq s.pending m st)
    (hr : t.reading = s.reading) (hw : t.writing = s.writing) : rvpINV t := by
  rcases rvpINV_cases s h with ⟨hpe, hre, hwe⟩ | ⟨r, hpe, hsh⟩
  · refine rvpINV_of_idle t ?_ (by rw [hr, hre]) (by rw [hw, hwe])
    rcases hp with hp | ⟨m, st, hp⟩
    · rw [hp, hpe]
    · rw [hp, hpe]
      rfl
  · rcases hp with hp | ⟨m, st, hp⟩
    · rcases hsh with ⟨hk, h1, h2⟩ | ⟨hk, h1, h2⟩
      · exact rvpINV_of_get t r (by rw [hp, hpe]) hk (by rw [hr, h1]) (by rw [hw, h2])
      · exact rvpINV_of_post t r (by rw [hp, hpe]) hk (by rw [hw, h1]) (by rw [hr, h2])
    · have hcan : cancelReq s.pending m st =
          [if r.rid = m then { r with cancelStatus := some st } else r] := by
        rw [hpe]
        rfl
      have hkk : (if r.rid = m then { r with cancelStatus := some st } else r).kind
          = r.kind := by
        split <;> rfl
      rcases hsh with ⟨hk, h1, h2⟩ | ⟨hk, h1, h2⟩
      · exact rvpINV_of_get t _ (by rw [hp, hcan]) (hkk.trans hk)
          (by rw [hr, h1]) (by rw [hw, h2])
      · exact rvpINV_of_post t _ (by rw [hp, hcan]) (hkk.trans hk)
          (by rw [hw, h1]) (by rw [hr, h2])

theorem rvpINV_get (s : RvpChannel) (h : rvpINV s) : rvpINV (servicervp_get s) := by
  unfold servicervp_get
  split
  · next hcond =>
    rcases rvpINV_cases s h with ⟨hpe, _, _⟩ | ⟨r, hpe, hsh⟩
    · refine rvpINV_of_get _ { rid := s.nextId, kind := .getReq, cancelStatus := none }
        ?_ rfl rfl hcond.2
      show s.pending ++ [_] = [_]
      rw [hpe]
      rfl
    · rcases hsh with ⟨_, h1, _⟩ | ⟨_, h1, _⟩
      · rw [hcond.1] at h1
        cases h1
      · rw [hcond.2] at h1
        cases h1
  · exact h

theorem rvpINV_post (s : RvpChannel) (h : rvpINV s) : rvpINV (servicervp_post s) := by
  unfold servicervp_post
  split
  · next hcond =>
    rcases rvpINV_cases s h with ⟨hpe, _, _⟩ | ⟨r, hpe, hsh⟩
    · refine rvpINV_of_post _ { rid := s.nextId, kind := .postReq, cancelStatus := none }
        ?_ rfl rfl hcond.1
      show s.pending ++ [_] = [_]
      rw [hpe]
      rfl
    · rcases hsh with ⟨_, h1, _⟩ | ⟨_, h1, _⟩
      · rw [hcond.1] at h1
        cases h1
      · rw [hcond.2] at h1
        cases h1
  · exact h

theorem stop_check_pending (s : RvpChannel) :
    (servicervp_stop_check s).pending = s.pending := by
  unfold servicervp_stop_check
  split <;> rfl

theorem stop_check_reading (s : RvpChannel) :
    (servicervp_stop_check s).reading = s.reading := by
  unfold servicervp_stop_check
  split <;> rfl

theorem stop_check_writing (s : RvpChannel) :
    (servicervp_stop_check s).writing = s.writing := by
  unfold servicervp_stop_check
  split <;> rfl

theorem rvpINV_stop_check (s : RvpChannel) (h : rvpINV s) :
    rvpINV (servicervp_stop_check s) :=
  rvpINV_frame s _ h (Or.inl (stop_check_pending s)) (stop_check_reading s)
    (stop_check_writing s)

theorem rvpINV_incoming_connect (s : RvpChannel) (h : rvpINV s) :
    rvpINV (servicervp_incoming_connect s).1 := by
  unfold servicervp_incoming_connect
  dsimp only
  split
  · split
    · split
      · exact rvpINV_stop_check _ (rvpINV_frame s _ h (Or.inl rfl) rfl rfl)
      · exact rvpINV_frame s _ h (Or.inl rfl) rfl rfl
    · exact rvpINV_frame s _ h (Or.inl rfl) rfl rfl
  · exact h

theorem stop_beacons_pending (s : RvpChannel) :
    (servicervp_stop_beacons s).1.pending = s.pending := by
  unfold servicervp_stop_beacons
  split <;> rfl

theorem stop_beacons_reading (s : RvpChannel) :
    (servicervp_stop_beacons s).1.reading = s.reading := by
  unfold servicervp_stop_beacons
  split <;> rfl

theorem stop_beacons_writing (s : RvpChannel) :
    (servicervp_stop_beacons s).1.writing = s.writing := by
  unfold servicervp_stop_beacons
  split <;> rfl

theorem stop_cancel_read_fields (s : RvpChannel) :
    ((servicervp_stop_cancel_read s).pending = s.pending
      ∨ ∃ m st, (servicervp_stop_cancel_read s).pending = cancelReq s.pending m st)
    ∧ (servicervp_stop_cancel_read s).reading = s.reading
    ∧ (servicervp_stop_cancel_read s).writing = s.writing := by
  unfold servicervp_stop_cancel_read
  split
  · next m hm =>
    split
    · exact ⟨Or.inr ⟨m, .cancelled, rfl⟩, rfl, rfl⟩
    · exact ⟨Or.inl rfl, rfl, rfl⟩
  · exact ⟨Or.inl rfl, rfl, rfl⟩

theorem rvpINV_stop (s : RvpChannel) (h : rvpINV s) : rvpINV (servicervp_stop s) := by
  unfold servicervp_stop
  split
  · have h1 : rvpINV ({ s with stopping := true } : RvpChannel) :=
      rvpINV_frame s _ h (Or.inl rfl) rfl rfl
    have h2 : rvpINV (servicervp_stop_beacons { s with stopping := true }).1 :=
      rvpINV_frame _ _ h1 (Or.inl (stop_beacons_pending _)) (stop_beacons_reading _)
        (stop_beacons_writing _)
    have h3 : rvpINV (if (servicervp_stop_beacons { s with stopping := true }).2 then
        servicervp_stop_check (servicervp_stop_beacons { s with stopping := true }).1
      else (servicervp_stop_beacons { s with stopping := true }).1) := by
      split
      · exact rvpINV_stop_check _ h2
      · exact h2
    have h4 : rvpINV (servicervp_stop_cancel_read
        (if (servicervp_stop_beacons { s with stopping := true }).2 then
          servicervp_stop_check (servicervp_stop_beacons { s with stopping := true }).1
        else (servicervp_stop_beacons { s with stopping := true }).1)) := by
      obtain ⟨hp, hr, hw⟩ := stop_cancel_read_fields
        (if (servicervp_stop_beacons { s with stopping := true }).2 then
          servicervp_stop_check (servicervp_stop_beacons { s with stopping := true }).1
        else (servicervp_stop_beacons { s with stopping := true }).1)
      exact rvpINV_frame _ _ h3 hp hr hw
    exact rvpINV_stop_check _ (rvpINV_frame _ _ h4 (Or.inl rfl) rfl rfl)
  · exact h

theorem rvpINV_read_complete (s : RvpChannel) (mid : Nat) (status : SoupStatus)
    (body : List Nat) (hp : s.pending = []) (hw : s.writing = false) :
    rvpINV (servicervp_read_complete s mid status body).1 := by
  have hidle : ∀ t : RvpChannel, t.pending = s.pending → t.reading = false →
      t.writing = s.writing → rvpINV t :=
    fun t hp' hr' hw' => rvpINV_of_idle t (hp' ▸ hp) hr' (hw' ▸ hw)
  unfold servicervp_read_complete
  dsimp only
  cases status
  all_goals try dsimp only
  all_goals repeat' split
  all_goals try dsimp only
  all_goals first
    | exact rvpINV_get _ (hidle _ rfl rfl rfl)
    | exact rvpINV_incoming_connect _ (hidle _ rfl rfl rfl)
    | exact rvpINV_stop_check _ (hidle _ rfl rfl rfl)
    | exact rvpINV_frame _ _ (hidle _ rfl rfl rfl) (Or.inl rfl) rfl rfl
    | exact hidle _ rfl rfl rfl

theorem rvpINV_write_complete (s : RvpChannel) (status : SoupStatus)
    (hp : s.pending = []) (hr : s.reading = false) :
    rvpINV (servicervp_write_complete s status) := by
  have hidle : ∀ t : RvpChannel, t.pending = s.pending → t.reading = s.reading →
      t.writing = false → rvpINV t :=
    fun t hp' hr' hw' => rvpINV_of_idle t (hp' ▸ hp) (hr' ▸ hr) hw'
  unfold servicervp_write_complete
  dsimp only
  cases status
  all_goals try dsimp only
  all_goals repeat' split
  all_goals first
    | exact rvpINV_get _ (hidle _ rfl rfl rfl)
    | exact rvpINV_stop_check _ (hidle _ rfl rfl rfl)
    | exact rvpINV_stop _ (hidle _ rfl rfl rfl)
    | exact hidle _ rfl rfl rfl

theorem rvpINV_retry (s : RvpChannel) (h : rvpINV s) :
    rvpINV (servicervp_retry_connection s) := by
  have h1 : rvpINV ({ s with retryPending := false } : RvpChannel) :=
    rvpINV_frame s _ h (Or.inl rfl) rfl rfl
  unfold servicervp_retry_connection
  dsimp only
  split
  · split
    · exact rvpINV_get _ h1
    · exact rvpINV_stop_check _ h1
  · exact rvpINV_stop_check _ h1

theorem rvpINV_error (s : RvpChannel) (h : rvpINV s) :
    rvpINV (servicervp_error s) := by
  unfold servicervp_error
  dsimp only
  split
  · next m hm =>
    refine rvpINV_stop _ (rvpINV_frame s _ h (Or.inr ⟨m, .cancelled, rfl⟩) rfl rfl)
  · exact rvpINV_stop _ (rvpINV_frame s _ h (Or.inl rfl) rfl rfl)

theorem rvpINV_disconnect (s : RvpChannel) (h : rvpINV s) :
    rvpINV (servicervp_disconnect s) := by
  unfold servicervp_disconnect
  dsimp only
  split
  · next m hm =>
    split
    · exact rvpINV_frame s _ h (Or.inr ⟨m, .cancelled, rfl⟩) rfl rfl
    · exact rvpINV_frame s _ h (Or.inl rfl) rfl rfl
  · exact rvpINV_frame s _ h (Or.inl rfl) rfl rfl

/-- One step of the channel preserves the request-discipline invariant,
provided the wall-clock watchdog does not expire (the wall-clock expiry
path is exactly where the discipline breaks; see the counterexample). -/
theorem rvpINV_step (s : RvpChannel) (e : RvpEvent) (h : rvpINV s)
    (he : e ≠ RvpEvent.wallclock true) : rvpINV (rvpStep s e).1 := by
  cases e with
  | listen => exact rvpINV_get s h
  | fsmWrite => exact rvpINV_post s h
  | complete mid status body =>
    unfold rvpStep
    dsimp only
    split
    · next req hfind =>
      rcases rvpINV_cases s h with ⟨hpe, hre, hwe⟩ | ⟨r, hpe, hsh⟩
      · rw [hpe] at hfind
        cases hfind
      · rw [hpe] at hfind
        by_cases hpr : r.rid = mid
        · have hreq : req = r := by
            simp [List.find?, hpr] at hfind
            exact hfind.symm
          subst hreq
          have hfilter : List.filter (fun r' => decide (r'.rid ≠ mid)) s.pending = [] := by
            rw [hpe]
            simp [hpr]
          split
          · next hk =>
            refine rvpINV_read_complete _ mid _ body hfilter ?_
            rcases hsh with ⟨_, _, h2⟩ | ⟨hk', _, _⟩
            · exact h2
            · rw [hk] at hk'
              cases hk'
          · next hk =>
            refine rvpINV_write_complete _ _ hfilter ?_
            rcases hsh with ⟨hk', _, _⟩ | ⟨_, _, h2⟩
            · rw [hk] at hk'
              cases hk'
            · exact h2
        · simp [List.find?, hpr] at hfind
    · exact h
  | wallclock expired =>
    cases expired with
    | false => simpa [rvpStep, servicervp_wallclock_timeout] using h
    | true => exact absurd rfl he
  | retryFire =>
    unfold rvpStep
    dsimp only
    split
    · exact rvpINV_retry s h
    · exact h
  | stopReq => exact rvpINV_stop s h
  | fsmError => exact rvpINV_error s h
  | fsmDisconnect => exact rvpINV_disconnect s h

theorem rvpINV_run (s : RvpChannel) (tr : List RvpEvent) (h : rvpINV s)
    (htr : ∀ e ∈ tr, e ≠ RvpEvent.wallclock true) : rvpINV (rvpRun s tr).1 := by
  induction tr generalizing s with
  | nil => exact h
  | cons e rest ih =>
    exact ih (rvpStep s e).1
      (rvpINV_step s e h (htr e (List.mem_cons_self e rest)))
      (fun e' he' => htr e' (List.mem_cons_of_mem e he'))

/-- Counterexample to C8: after a wall-clock expiry cancels an in-flight
GET and restarts a fresh one, the stale completion of the cancelled GET
clears the reading flag while the replacement is still in flight; a
send is then accepted despite the in-flight read, and its completion
restarts yet another GET — leaving two live (uncancelled) GETs in
flight at once, where the claim allows at most one read. -/
theorem c8_counterexample :
    liveGets (rvpRun servicervp_new
      [.listen,
       .complete 0 .ok [9, 9, 9, 9, 9, 9],
       .fsmWrite,
       .complete 1 .ok [],
       .wallclock true,
       .complete 2 .ok [],
       .fsmWrite,
       .complete 4 .ok []]).1 = 2
    ∧ ¬ liveGets (rvpRun servicervp_new
      [.listen,
       .complete 0 .ok [9, 9, 9, 9, 9, 9],
       .fsmWrite,
       .complete 1 .ok [],
       .wallclock true,
       .complete 2 .ok [],
       .fsmWrite,
       .complete 4 .ok []]).1 ≤ 1 := by
  constructor
  · rfl
  · decide

/-- Claim C8 amended: in every execution of the channel with no
wall-clock-expiry cancellation, at most one GET and at most one POST
are in flight at any time, and a send or receive requested while a read
or a write is marked ongoing is refused (the operation is dropped
without starting a request).  After a wall-clock expiry the stale
completion of the cancelled GET resets the flags while the replacement
GET is still in flight, and overlapping requests become possible (see
the counterexample). -/
theorem c8_single_flight (tr : List RvpEvent)
    (htr : ∀ e ∈ tr, e ≠ RvpEvent.wallclock true) :
    liveGets (rvpRun servicervp_new tr).1 ≤ 1
    ∧ livePosts (rvpRun servicervp_new tr).1 ≤ 1
    ∧ (∀ s : RvpChannel, s.reading = true ∨ s.writing = true →
        servicervp_get s = s ∧ servicervp_post s = s) := by
  have hnew : rvpINV servicervp_new := rvpINV_of_idle _ rfl rfl rfl
  have hinv := rvpINV_run servicervp_new tr hnew htr
  obtain ⟨-, -, hlen⟩ := hinv
  refine ⟨?_, ?_, ?_⟩
  · exact le_trans (List.length_filter_le _ _) hlen
  · exact le_trans (List.length_filter_le _ _) hlen
  · intro s hs
    constructor
    · unfold servicervp_get
      rw [if_neg]
      rcases hs with hs | hs <;> simp [hs]
    · unfold servicervp_post
      rw [if_neg]
      rcases hs with hs | hs <;> simp [hs]

/-- Witness for C8 (amended): a wall-clock-free trace — listen, data
delivery, a send and its completion — ends with at most one live GET
and POST. -/
theorem c8_single_flight_witness :
    liveGets (rvpRun servicervp_new
      [.listen, .complete 0 .ok [9, 9, 9, 9, 9, 9], .fsmWrite,
       .complete 1 .ok []]).1 ≤ 1
    ∧ livePosts (rvpRun servicervp_new
      [.listen, .complete 0 .ok [9, 9, 9, 9, 9, 9], .fsmWrite,
       .complete 1 .ok []]).1 ≤ 1 :=
  ⟨(c8_single_flight
      [.listen, .complete 0 .ok [9, 9, 9, 9, 9, 9], .fsmWrite, .complete 1 .ok []]
      (by decide)).1,
   (c8_single_flight
      [.listen, .complete 0 .ok [9, 9, 9, 9, 9, 9], .fsmWrite, .complete 1 .ok []]
      (by decide)).2.1⟩

/-! ## Claim C4: allocation, exhaustion and harvest-recovery -/

theorem getD_set_self (l : List (Option AuthThreadM)) (i : Nat) (h : i < l.length)
    (a : Option AuthThreadM) : (l.set i a).getD i none = a := by
  simp [List.getD_eq_getElem?_getD, List.getElem?_set_self, h]

theorem getD_set_ne (l : List (Option AuthThreadM)) (i j : Nat) (h : i ≠ j)
    (a : Option AuthThreadM) : (l.set i a).getD j none = l.getD j none := by
  simp [List.getD_eq_getElem?_getD, List.getElem?_set_ne h]

theorem isSome_getD_lt (l : List (Option AuthThreadM)) (i : Nat)
    (h : (l.getD i none).isSome = true) : i < l.length := by
  by_contra hlt
  push_neg at hlt
  rw [List.getD_eq_getElem?_getD, List.getElem?_eq_none hlt] at h
  cases h

theorem advanceCursor_ge (items : List (Option AuthThreadM)) (n : Nat) :
    n ≤ advanceCursor items n := by
  by_cases hc : n < MAX_SIMULTANEOUS_AUTHS ∧ (items.getD n none).isSome = true
  · rw [advanceCursor, dif_pos hc]
    exact Nat.le_trans (Nat.le_succ n) (advanceCursor_ge items (n + 1))
  · rw [advanceCursor, dif_neg hc]
termination_by MAX_SIMULTANEOUS_AUTHS - n
decreasing_by simp_wf; omega

theorem advanceCursor_le (items : List (Option AuthThreadM)) (n : Nat)
    (h : n ≤ MAX_SIMULTANEOUS_AUTHS) : advanceCursor items n ≤ MAX_SIMULTANEOUS_AUTHS := by
  by_cases hc : n < MAX_SIMULTANEOUS_AUTHS ∧ (items.getD n none).isSome = true
  · rw [advanceCursor, dif_pos hc]
    exact advanceCursor_le items (n + 1) hc.1
  · rw [advanceCursor, dif_neg hc]
    exact h
termination_by MAX_SIMULTANEOUS_AUTHS - n
decreasing_by simp_wf; omega

theorem advanceCursor_occupied (items : List (Option AuthThreadM)) (n i : Nat)
    (h1 : n ≤ i) (h2 : i < advanceCursor items n) :
    (items.getD i none).isSome = true := by
  by_cases hc : n < MAX_SIMULTANEOUS_AUTHS ∧ (items.getD n none).isSome = true
  · rw [advanceCursor, dif_pos hc] at h2
    rcases Nat.eq_or_lt_of_le h1 with heq | hlt
    · exact heq ▸ hc.2
    · exact advanceCursor_occupied items (n + 1) i hlt h2
  · rw [advanceCursor, dif_neg hc] at h2
    omega
termination_by MAX_SIMULTANEOUS_AUTHS - n
decreasing_by simp_wf; omega

theorem advanceCursor_stop (items : List (Option AuthThreadM)) (n : Nat)
    (h : advanceCursor items n < MAX_SIMULTANEOUS_AUTHS) :
    items.getD (advanceCursor items n) none = none := by
  by_cases hc : n < MAX_SIMULTANEOUS_AUTHS ∧ (items.getD n none).isSome = true
  · have heq : advanceCursor items n = advanceCursor items (n + 1) := by
      rw [advanceCursor, dif_pos hc]
    rw [heq] at h ⊢
    exact advanceCursor_stop items (n + 1) h
  · have heq : advanceCursor items n = n := by
      rw [advanceCursor, dif_neg hc]
    rw [heq] at h ⊢
    have hns : ¬((items.getD n none).isSome = true) := fun hs => hc ⟨h, hs⟩
    exact Option.not_isSome_iff_eq_none.mp hns
termination_by MAX_SIMULTANEOUS_AUTHS - n
decreasing_by simp_wf; omega

theorem storeWF_remove (s : ProcessStore) (hwf : storeWF s) (handle : Int) :
    storeWF (processstore_remove s handle) := by
  obtain ⟨hlen, hcle, hocc, hfree, hnd, hmem, hmem'⟩ := hwf
  unfold processstore_remove
  split
  · next hrange =>
    dsimp only
    split
    · next hsome =>
      have hh : handle.toNat < MAX_SIMULTANEOUS_AUTHS := by
        unfold MAX_SIMULTANEOUS_AUTHS at hrange ⊢
        omega
      have hhlen : handle.toNat < s.items.length := by rw [hlen]; exact hh
      refine ⟨by simp [hlen], ?_, ?_, ?_, ?_, ?_, ?_⟩
      · dsimp only
        split <;> omega
      · dsimp only
        intro i hi
        by_cases hlt : handle.toNat < s.nextAvailable
        · rw [if_pos hlt] at hi
          rw [getD_set_ne _ _ _ (by omega)]
          exact hocc i (by omega)
        · rw [if_neg hlt] at hi
          rw [getD_set_ne _ _ _ (by omega)]
          exact hocc i hi
      · dsimp only
        intro hcur
        by_cases hlt : handle.toNat < s.nextAvailable
        · rw [if_pos hlt] at hcur ⊢
          exact getD_set_self _ _ hhlen _
        · rw [if_neg hlt] at hcur ⊢
          have hne : handle.toNat ≠ s.nextAvailable := by
            intro heq
            rw [heq] at hsome
            rw [hfree hcur] at hsome
            cases hsome
          rw [getD_set_ne _ _ _ hne]
          exact hfree hcur
      · exact hnd.erase _
      · dsimp only
        intro i hiE
        obtain ⟨hne, hiF⟩ := (hnd.mem_erase_iff).mp hiE
        obtain ⟨hiM, hiS⟩ := hmem i hiF
        exact ⟨hiM, by rw [getD_set_ne _ _ _ (Ne.symm hne)]; exact hiS⟩
      · dsimp only
        intro i hiM hiS
        have hne : handle.toNat ≠ i := by
          intro heq
          rw [← heq, getD_set_self _ _ hhlen] at hiS
          cases hiS
        rw [getD_set_ne _ _ _ hne] at hiS
        exact (hnd.mem_erase_iff).mpr ⟨Ne.symm hne, hmem' i hiM hiS⟩
    · exact ⟨hlen, hcle, hocc, hfree, hnd, hmem, hmem'⟩
  · exact ⟨hlen, hcle, hocc, hfree, hnd, hmem, hmem'⟩

theorem storeWF_harvestStep (st : ProcessStore) (h : Nat) (hwf : storeWF st) :
    storeWF (harvestStep st h) := by
  unfold harvestStep
  split
  · split
    · exact storeWF_remove st hwf _
    · exact hwf
  · exact hwf

theorem storeWF_harvest_fold (l : List Nat) : ∀ st : ProcessStore, storeWF st →
    storeWF (l.foldl harvestStep st) := by
  induction l with
  | nil => exact fun st hwf => hwf
  | cons hd tl ih =>
    intro st hwf
    exact ih (harvestStep st hd) (storeWF_harvestStep st hd hwf)

theorem storeWF_harvest (s : ProcessStore) (hwf : storeWF s) :
    storeWF (processstore_harvest s) :=
  storeWF_harvest_fold s.first s hwf

theorem remove_getD_ne (st : ProcessStore) (handle : Int) (i : Nat)
    (hne : handle.toNat ≠ i) :
    (processstore_remove st handle).items.getD i none = st.items.getD i none := by
  unfold processstore_remove
  split
  · dsimp only
    split
    · exact getD_set_ne _ _ _ hne none
    · rfl
  · rfl

theorem harvestStep_getD_ne (st : ProcessStore) (hd i : Nat) (hne : i ≠ hd) :
    (harvestStep st hd).items.getD i none = st.items.getD i none := by
  unfold harvestStep
  split
  · next t hsome =>
    split
    · exact remove_getD_ne st (Int.ofNat hd) i (fun heq => hne (heq.symm))
    · rfl
  · rfl

theorem harvestStep_none (st : ProcessStore) (hd i : Nat)
    (hnone : st.items.getD i none = none) :
    (harvestStep st hd).items.getD i none = none := by
  by_cases hne : i = hd
  · subst hne
    unfold harvestStep
    rw [hnone]
    exact hnone
  · rw [harvestStep_getD_ne st hd i hne]
    exact hnone

theorem harvestStep_removes (st : ProcessStore) (i : Nat) (hlen : st.items.length = MAX_SIMULTANEOUS_AUTHS)
    (t : AuthThreadM) (hsome : st.items.getD i none = some t)
    (hstate : t.state = .harvestable) :
    (harvestStep st i).items.getD i none = none := by
  have hilen : i < st.items.length := isSome_getD_lt _ _ (by rw [hsome]; rfl)
  have hi16 : i < MAX_SIMULTANEOUS_AUTHS := by rw [← hlen]; exact hilen
  unfold harvestStep
  rw [hsome]
  dsimp only
  rw [if_pos hstate]
  unfold processstore_remove
  rw [if_pos ⟨Int.ofNat_nonneg i, by exact Int.ofNat_lt.mpr hi16⟩]
  dsimp only
  rw [if_pos (show ((st.items.getD (Int.ofNat i).toNat none).isSome = true) from by
    rw [show (Int.ofNat i).toNat = i from rfl, hsome]; rfl)]
  exact getD_set_self _ _ hilen _

theorem harvest_fold_frees (l : List Nat) : ∀ (st : ProcessStore) (i : Nat), storeWF st →
    (st.items.getD i none = none
      ∨ (i ∈ l ∧ ∃ t, st.items.getD i none = some t ∧ t.state = .harvestable)) →
    (l.foldl harvestStep st).items.getD i none = none := by
  induction l with
  | nil =>
    intro st i _ h
    rcases h with h | ⟨hmem, _⟩
    · exact h
    · cases hmem
  | cons hd tl ih =>
    intro st i hwf h
    simp only [List.foldl]
    apply ih (harvestStep st hd) i (storeWF_harvestStep st hd hwf)
    rcases h with hnone | ⟨hmem, t, hsome, hstate⟩
    · exact Or.inl (harvestStep_none st hd i hnone)
    · by_cases hdi : i = hd
      · subst hdi
        exact Or.inl (harvestStep_removes st i hwf.1 t hsome hstate)
      · rcases List.mem_cons.mp hmem with heq | htl
        · exact absurd heq hdi
        · exact Or.inr ⟨htl, t, by rw [harvestStep_getD_ne st hd i hdi]; exact hsome, hstate⟩

theorem harvest_fold_id (l : List Nat) : ∀ st : ProcessStore,
    (∀ h ∈ l, ∀ t : AuthThreadM, st.items.getD h none = some t → t.state ≠ .harvestable) →
    l.foldl harvestStep st = st := by
  induction l with
  | nil => exact fun st _ => rfl
  | cons hd tl ih =>
    intro st hnh
    have hstep : harvestStep st hd = st := by
      unfold harvestStep
      split
      · next t hsome =>
        rw [if_neg (hnh hd (List.mem_cons_self hd tl) t hsome)]
      · rfl
    simp only [List.foldl, hstep]
    exact ih st (fun h hm t ht => hnh h (List.mem_cons_of_mem hd hm) t ht)

theorem storeWF_add (s : ProcessStore) (hwf : storeWF s) :
    storeWF (processstore_add s).1 := by
  have hwf1 := storeWF_harvest s hwf
  obtain ⟨hlen, hcle, hocc, hfree, hnd, hmem, hmem'⟩ := hwf1
  unfold processstore_add
  dsimp only
  split
  · next hlt =>
    have hclen : (processstore_harvest s).nextAvailable < (processstore_harvest s).items.length := by
      rw [hlen]
      exact hlt
    have hnotmem : (processstore_harvest s).nextAvailable ∉ (processstore_harvest s).first := by
      intro hin
      have := (hmem _ hin).2
      rw [hfree hlt] at this
      cases this
    refine ⟨by simp [hlen], ?_, ?_, ?_, ?_, ?_, ?_⟩
    · exact advanceCursor_le _ _ (Nat.le_of_lt hlt)
    · intro i hi
      rcases lt_trichotomy i (processstore_harvest s).nextAvailable with hl | heq | hg
      · rw [getD_set_ne _ _ _ (by omega)]
        exact hocc i hl
      · subst heq
        rw [getD_set_self _ _ hclen]
        rfl
      · exact advanceCursor_occupied _ _ i (Nat.le_of_lt hg) hi
    · intro hcur
      exact advanceCursor_stop _ _ hcur
    · exact List.nodup_cons.mpr ⟨hnotmem, hnd⟩
    · intro i hi
      rcases List.mem_cons.mp hi with heq | htl
      · subst heq
        exact ⟨hlt, by rw [getD_set_self _ _ hclen]; rfl⟩
      · obtain ⟨hiM, hiS⟩ := hmem i htl
        have hne : (processstore_harvest s).nextAvailable ≠ i := by
          intro heq
          exact hnotmem (heq ▸ htl)
        exact ⟨hiM, by rw [getD_set_ne _ _ _ hne]; exact hiS⟩
    · intro i hiM hiS
      by_cases heq : i = (processstore_harvest s).nextAvailable
      · exact heq ▸ List.mem_cons_self _ _
      · rw [getD_set_ne _ _ _ (Ne.symm heq)] at hiS
        exact List.mem_cons_of_mem _ (hmem' i hiM hiS)
  · exact ⟨hlen, hcle, hocc, hfree, hnd, hmem, hmem'⟩

/-- Claim C4: allocation first harvests, then hands out the smallest
free slot: every slot below the returned handle is occupied and the
returned slot itself was free, while the cursor is advanced past
consecutive occupied slots (the well-formedness of the resulting store,
which pins the cursor to the new smallest free slot, is preserved).
When all 16 slots hold non-harvestable sessions the StartAuth caller is
replied `(-1, "", false)`; as soon as any occupied slot is harvestable,
allocation succeeds with a handle in `[0, 16)`. -/
theorem c4_allocation (s : ProcessStore) (hwf : storeWF s) :
    (∀ j, j < (processstore_harvest s).nextAvailable →
      (((processstore_harvest s).items.getD j none).isSome = true))
    ∧ ((processstore_harvest s).nextAvailable < MAX_SIMULTANEOUS_AUTHS →
      (processstore_add s).2 = Int.ofNat (processstore_harvest s).nextAvailable
      ∧ (processstore_harvest s).items.getD (processstore_harvest s).nextAvailable none = none)
    ∧ (¬(processstore_harvest s).nextAvailable < MAX_SIMULTANEOUS_AUTHS →
      (processstore_add s).2 = -1)
    ∧ storeWF (processstore_add s).1
    ∧ ((∀ i, i < MAX_SIMULTANEOUS_AUTHS →
        ∃ t : AuthThreadM, s.items.getD i none = some t ∧ t.state ≠ .harvestable) →
      ∀ configOk beacon setupOk,
        (start_auth s configOk beacon setupOk).2.1 = some (-1, "", false))
    ∧ ((∃ i, ∃ t : AuthThreadM, s.items.getD i none = some t ∧ t.state = .harvestable) →
      0 ≤ (processstore_add s).2 ∧ (processstore_add s).2 < MAX_SIMULTANEOUS_AUTHS) := by
  have hwf1 := storeWF_harvest s hwf
  obtain ⟨hlen, hcle, hocc, hfree, hnd, hmem, hmem'⟩ := hwf1
  have hadd : (processstore_add s).2 =
      (if (processstore_harvest s).nextAvailable < MAX_SIMULTANEOUS_AUTHS then
        Int.ofNat (processstore_harvest s).nextAvailable else -1) := by
    unfold processstore_add
    dsimp only
    split
    · rfl
    · rfl
  refine ⟨hocc, ?_, ?_, storeWF_add s hwf, ?_, ?_⟩
  · intro hlt
    exact ⟨by rw [hadd, if_pos hlt], hfree hlt⟩
  · intro hge
    rw [hadd, if_neg hge]
  · intro hfull configOk beacon setupOk
    have hid : processstore_harvest s = s := by
      apply harvest_fold_id
      intro h hm t ht hstate
      obtain ⟨t', hsome', hstate'⟩ := hfull h (hwf.2.2.2.2.2.1 h hm).1
      rw [hsome'] at ht
      injection ht with htt
      exact hstate' (htt ▸ hstate)
    have hcurS : s.nextAvailable = MAX_SIMULTANEOUS_AUTHS := by
      by_contra hne
      have hltS : s.nextAvailable < MAX_SIMULTANEOUS_AUTHS := by
        have := hwf.2.1
        omega
      obtain ⟨t, hsome, _⟩ := hfull s.nextAvailable hltS
      rw [hwf.2.2.2.1 hltS] at hsome
      cases hsome
    have hres : (processstore_add s).2 = -1 := by
      rw [hadd, if_neg (by rw [hid, hcurS]; omega)]
    unfold start_auth
    dsimp only
    rw [hres]
    rw [if_pos (by omega)]
  · intro ⟨i, t, hsome, hstate⟩
    have hilen : i < s.items.length := isSome_getD_lt _ _ (by rw [hsome]; rfl)
    have hi16 : i < MAX_SIMULTANEOUS_AUTHS := by rw [← hwf.1]; exact hilen
    have hifirst : i ∈ s.first := hwf.2.2.2.2.2.2 i hi16 (by rw [hsome]; rfl)
    have hfreed : (processstore_harvest s).items.getD i none = none :=
      harvest_fold_frees s.first s i hwf (Or.inr ⟨hifirst, t, hsome, hstate⟩)
    have hcur : (processstore_harvest s).nextAvailable ≤ i := by
      by_contra hgt
      push_neg at hgt
      have := hocc i hgt
      rw [hfreed] at this
      cases this
    have hlt : (processstore_harvest s).nextAvailable < MAX_SIMULTANEOUS_AUTHS := by omega
    rw [hadd, if_pos hlt]
    constructor
    · exact Int.ofNat_nonneg _
    · exact Int.ofNat_lt.mpr hlt

theorem getD_replicate (a : Option AuthThreadM) (n i : Nat) (h : i < n) :
    (List.replicate n a).getD i none = a := by
  induction n generalizing i with
  | zero => omega
  | succ m ih =>
    cases i with
    | zero => rfl
    | succ j => exact ih j (by omega)

/-- Witness for C4: on the empty store allocation returns the harvested
cursor (slot 0, free); on a store whose 16 slots all hold started
sessions StartAuth is replied `(-1, "", false)`; on a store whose only
session is harvestable allocation succeeds with a handle in `[0, 16)`. -/
theorem c4_allocation_witness :
    ((processstore_add processstore_new).2 =
        Int.ofNat (processstore_harvest processstore_new).nextAvailable
      ∧ (processstore_harvest processstore_new).items.getD
          (processstore_harvest processstore_new).nextAvailable none = none)
    ∧ (start_auth
        { items := List.replicate 16 (some { handle := 0, state := .started, result := false, username := "Nobody", password := "", objInv := none })
          first := [0, 1, 2, 3, 4, 5, 6, 7, 8, 9, 10, 11, 12, 13, 14, 15]
          nextAvailable := 16 } true "" true).2.1 = some (-1, "", false)
    ∧ (0 ≤ (processstore_add
        { items := some { handle := 0, state := .harvestable, result := false, username := "Nobody", password := "", objInv := none } :: List.replicate 15 none
          first := [0]
          nextAvailable := 1 }).2
      ∧ (processstore_add
        { items := some { handle := 0, state := .harvestable, result := false, username := "Nobody", password := "", objInv := none } :: List.replicate 15 none
          first := [0]
          nextAvailable := 1 }).2 < MAX_SIMULTANEOUS_AUTHS) :=
  ⟨(c4_allocation processstore_new (by unfold storeWF; decide)).2.1 (by decide),
   (c4_allocation
      { items := List.replicate 16 (some { handle := 0, state := .started, result := false, username := "Nobody", password := "", objInv := none })
        first := [0, 1, 2, 3, 4, 5, 6, 7, 8, 9, 10, 11, 12, 13, 14, 15]
        nextAvailable := 16 } (by unfold storeWF; decide)).2.2.2.2.1
      (fun i hi => ⟨{ handle := 0, state := .started, result := false, username := "Nobody", password := "", objInv := none },
        getD_replicate _ 16 i hi, by decide⟩) true "" true,
   (c4_allocation
      { items := some { handle := 0, state := .harvestable, result := false, username := "Nobody", password := "", objInv := none } :: List.replicate 15 none
        first := [0]
        nextAvailable := 1 } (by unfold storeWF; decide)).2.2.2.2.2
      ⟨0, { handle := 0, state := .harvestable, result := false, username := "Nobody", password := "", objInv := none }, rfl, rfl⟩⟩

end PamPico
